import Mathlib

/-!
# EventEase: the booking-capacity core

A shallow embedding of `server/routes/bookings.js` together with the two
Mongoose models it uses (`server/models/Booking.js`, `server/models/Event.js`).

Modelling conventions

* The database is a pair of collections, each a list in insertion order.
* An `ObjectId` is an abstract identifier. `findById` and `findOne` cast the
  identifier of a request to the type of the path they query and select the
  documents whose field equals it. `Booking.aggregate` does not cast its pipeline:
  its `$match` compares the stored ObjectId with the string of the request.
* A `Date` is a number of milliseconds since the epoch; `moment(..)` comparisons
  with granularity `"day"` are embedded through `startOf("day")`/`endOf("day")`
  on a fixed-offset calendar.
* Money is counted in an integral unit; `event.price * seats` with `seats` in
  `{1, 2}` is exact. Sums of fractional amounts, where double rounding matters,
  are embedded apart (`addDouble`).
* The wall clock (`moment()`, `new Date()`, `Date.now`) and the `_id` of a
  freshly constructed document are inputs of a request.
* Authentication (`auth` middleware) has already attached `req.user`.
-/

namespace EventEase

/-! ## Data model -/

/-- Identifier of a stored document (`mongoose.Schema.Types.ObjectId`). -/
abbrev ObjectId := Nat

/-- Milliseconds since the epoch (`Date`). -/
abbrev Date := Nat

/-- Role carried by an authenticated user record. -/
inductive Role where
  | user
  | admin
  deriving DecidableEq, Repr

/-- The authenticated requester, `req.user`. -/
structure User where
  id : ObjectId
  role : Role
  deriving DecidableEq, Repr

/-- The `status` path of `bookingSchema`: `enum: ["confirmed", "cancelled"]`. -/
inductive Status where
  | confirmed
  | cancelled
  deriving DecidableEq, Repr

/-- The paths of `eventSchema` read by the booking routes.
`capacity` is `Number, min: 1` written through `isInt({ min: 1 })`;
`price` is `Number, min: 0`. -/
structure Event where
  id : ObjectId
  capacity : Nat
  price : Int
  date : Date
  deriving DecidableEq, Repr

/-- A document of `bookingSchema`. `cancelledAt` has no default. `totalAmount` is counted
in whole units of money; on whole numbers the additions of the statistics are exact
(`addDouble_whole`), and sums of fractional amounts are embedded apart. -/
structure Booking where
  id : ObjectId
  user : ObjectId
  event : ObjectId
  seats : Int
  totalAmount : Int
  status : Status
  bookingDate : Date
  cancelledAt : Option Date
  deriving DecidableEq, Repr

/-- The two collections. -/
structure Db where
  events : List Event
  bookings : List Booking
  deriving DecidableEq, Repr

/-! ## `moment` comparisons at day granularity -/

/-- Length of a day in milliseconds. -/
def msPerDay : Nat := 86400000

/-- Embedding of `m.startOf("day").valueOf()`. -/
def startOfDay (t : Date) : Date := t - t % msPerDay

/-- Embedding of `m.endOf("day").valueOf()`. -/
def endOfDay (t : Date) : Date := startOfDay t + (msPerDay - 1)

/-- Embedding of `moment(a).isBefore(moment(b), "day")`: the end of `a`'s day lies before `b`. -/
def isBeforeDay (a b : Date) : Bool := decide (endOfDay a < b)

/-- Embedding of `moment(a).isSame(moment(b), "day")`: `b` lies within `a`'s day. -/
def isSameDay (a b : Date) : Bool := decide (startOfDay a ≤ b ∧ b ≤ endOfDay a)

/-- Embedding of `moment(a).isSameOrBefore(moment(b), "day")`. -/
def isSameOrBeforeDay (a b : Date) : Bool := isSameDay a b || isBeforeDay a b

/-- The calendar day a timestamp falls on. -/
def dayOf (t : Date) : Nat := t / msPerDay

/-! ## Queries -/

/-- Embedding of `Event.findById(id)`. -/
def findEventById (events : List Event) (id : ObjectId) : Option Event :=
  events.find? (fun e => decide (e.id = id))

/-- Embedding of `Booking.findById(id)`. -/
def findBookingById (bookings : List Booking) (id : ObjectId) : Option Booking :=
  bookings.find? (fun b => decide (b.id = id))

/-- Embedding of `Booking.findOne({ user, event, status: "confirmed" })`. -/
def findOneConfirmed (bookings : List Booking) (user event : ObjectId) : Option Booking :=
  bookings.find? (fun b => decide (b.user = user ∧ b.event = event ∧ b.status = Status.confirmed))

/-- A value as a `$match` stage compares it, with its type: the `event` path of a stored
booking is an ObjectId, the `eventId` of a request body or of a route parameter is a
string. -/
inductive QueryValue where
  | objectId (id : ObjectId)
  | string (text : ObjectId)
  deriving DecidableEq, Repr

/-- Embedding of the pipeline
`[{ $match: { event: eventId, status: "confirmed" } }, { $group: { _id: null, totalSeats: { $sum: "$seats" } } }]`.
The pipeline reaches the database as written: the stored ObjectId is compared with the
string of the request. The result array has no element when nothing matches and one
element otherwise. -/
def aggregateTotalSeats (bookings : List Booking) (eventId : ObjectId) : List Int :=
  match bookings.filter (fun b =>
      decide (QueryValue.objectId b.event = QueryValue.string eventId ∧
        b.status = Status.confirmed)) with
  | [] => []
  | m :: ms => [(m :: ms).foldl (fun total b => total + b.seats) 0]

/-- Embedding of `totalBookedSeats.length > 0 ? totalBookedSeats[0].totalSeats : 0`. -/
def bookedSeatsOf (totalBookedSeats : List Int) : Int :=
  match totalBookedSeats with
  | [] => 0
  | r :: _ => r

/-- Handler of `GET /event/:eventId/availability`: the `bookedSeats` of the response. -/
def getAvailability (db : Db) (eventId : ObjectId) : Int :=
  bookedSeatsOf (aggregateTotalSeats db.bookings eventId)

/-! ## Create booking: `POST /` -/

/-- The body of a create request. `eventId` is `none` when the field is absent or empty;
`seats` is `none` when the field is not an integer literal. -/
structure CreateBody where
  eventId : Option ObjectId
  seats : Option Int
  deriving DecidableEq, Repr

/-- One entry of `errors.array()`. -/
inductive FieldError where
  | eventIdRequired
  | seatsRange
  deriving DecidableEq, Repr

/-- Embedding of `body("seats").isInt({ min: 1, max: 2 })`. -/
def seatsIsInt (seats : Option Int) : Bool :=
  match seats with
  | none => false
  | some n => decide (1 ≤ n ∧ n ≤ 2)

/-- Embedding of `validationResult(req)` for the two validators of `POST /`, in their order. -/
def validationResult (body : CreateBody) : List FieldError :=
  (if body.eventId.isSome then [] else [FieldError.eventIdRequired]) ++
  (if seatsIsInt body.seats then [] else [FieldError.seatsRange])

/-- Responses of `POST /`. -/
inductive CreateResult where
  /-- 400 with `errors.array()`. -/
  | validation (errors : List FieldError)
  /-- 404 "Event not found". -/
  | eventNotFound
  /-- 400 "Cannot book for past events". -/
  | pastEvent
  /-- 400 "You already have a booking for this event". -/
  | duplicate
  /-- 400 "Only n seats available for this event". -/
  | capacityExceeded (availableSeats : Int)
  /-- 201 "Booking created successfully". -/
  | created (booking : Booking)
  /-- 500 "Server error". -/
  | serverError
  deriving DecidableEq, Repr

/-- HTTP status of a create response. -/
def CreateResult.code : CreateResult → Nat
  | .validation _ => 400
  | .eventNotFound => 404
  | .pastEvent => 400
  | .duplicate => 400
  | .capacityExceeded _ => 400
  | .created _ => 201
  | .serverError => 500

/-- The document built by `new Booking({ user, event, seats, totalAmount })` in `POST /`:
`status` and `bookingDate` take their schema defaults (`"confirmed"`, `Date.now`). -/
def newBooking (user : User) (event : Event) (eventId : ObjectId) (seats : Int) (now : Date)
    (newId : ObjectId) : Booking :=
  { id := newId
    user := user.id
    event := eventId
    seats := seats
    totalAmount := event.price * seats
    status := Status.confirmed
    bookingDate := now
    cancelledAt := none }

/-- Handler of `POST /`. Returns the response and the database after the request. -/
def createBooking (db : Db) (user : User) (body : CreateBody) (now : Date) (newId : ObjectId) :
    CreateResult × Db :=
  if validationResult body ≠ [] then
    (CreateResult.validation (validationResult body), db)
  else
    match body.eventId, body.seats with
    | some eventId, some seats =>
      match findEventById db.events eventId with
      | none => (CreateResult.eventNotFound, db)
      | some event =>
        if isBeforeDay event.date now then
          (CreateResult.pastEvent, db)
        else
          match findOneConfirmed db.bookings user.id eventId with
          | some _ => (CreateResult.duplicate, db)
          | none =>
            let bookedSeats := bookedSeatsOf (aggregateTotalSeats db.bookings eventId)
            let availableSeats := (event.capacity : Int) - bookedSeats
            if seats > availableSeats then
              (CreateResult.capacityExceeded availableSeats, db)
            else
              let booking := newBooking user event eventId seats now newId
              (CreateResult.created booking, { db with bookings := db.bookings ++ [booking] })
    | _, _ => (CreateResult.serverError, db)  -- not reached: both fields passed validation

/-! ## Cancel booking: `PUT /:id/cancel` -/

/-- Responses of `PUT /:id/cancel`. -/
inductive CancelResult where
  /-- 404 "Booking not found". -/
  | bookingNotFound
  /-- 403 "Not authorized to cancel this booking". -/
  | forbidden
  /-- 400 "Cannot cancel booking for events that have started". -/
  | eventStarted
  /-- 400 "Booking is already cancelled". -/
  | alreadyCancelled
  /-- 200 "Booking cancelled successfully". -/
  | cancelled (booking : Booking)
  /-- 500 "Server error". -/
  | serverError
  deriving DecidableEq, Repr

/-- HTTP status of a cancel response. -/
def CancelResult.code : CancelResult → Nat
  | .bookingNotFound => 404
  | .forbidden => 403
  | .eventStarted => 400
  | .alreadyCancelled => 400
  | .cancelled _ => 200
  | .serverError => 500

/-- Embedding of `booking.save()` on a loaded document: the stored document with
the same `_id` is replaced. -/
def saveBooking : List Booking → Booking → List Booking
  | [], _ => []
  | b :: bs, doc => if b.id = doc.id then doc :: bs else b :: saveBooking bs doc

/-- Embedding of `booking.status = "cancelled"; booking.cancelledAt = new Date();`. -/
def markCancelled (booking : Booking) (now : Date) : Booking :=
  { booking with status := Status.cancelled, cancelledAt := some now }

/-- Handler of `PUT /:id/cancel`. `populate("event")` leaves `booking.event` null when the
referenced event is gone, and reading `.date` of it throws into the `catch`. -/
def cancelBooking (db : Db) (user : User) (id : ObjectId) (now : Date) : CancelResult × Db :=
  match findBookingById db.bookings id with
  | none => (CancelResult.bookingNotFound, db)
  | some booking =>
    if booking.user ≠ user.id then
      (CancelResult.forbidden, db)
    else
      match findEventById db.events booking.event with
      | none => (CancelResult.serverError, db)
      | some event =>
        if isSameOrBeforeDay event.date now then
          (CancelResult.eventStarted, db)
        else if booking.status = Status.cancelled then
          (CancelResult.alreadyCancelled, db)
        else
          let saved := markCancelled booking now
          (CancelResult.cancelled saved, { db with bookings := saveBooking db.bookings saved })

/-! ## Request sequences -/

/-- A booking request together with the clock reading (and fresh `_id`) it is served with. -/
inductive Request where
  | create (user : User) (body : CreateBody) (now : Date) (newId : ObjectId)
  | cancel (user : User) (id : ObjectId) (now : Date)
  deriving DecidableEq, Repr

/-- The database after serving one request. -/
def step (db : Db) : Request → Db
  | .create user body now newId => (createBooking db user body now newId).2
  | .cancel user id now => (cancelBooking db user id now).2

/-- The database after serving the requests one at a time, in order. -/
def run (db : Db) (requests : List Request) : Db :=
  requests.foldl step db

/-! ## Event routes: `POST /`, `PUT /:id`, `DELETE /:id` of `routes/events.js` -/

/-- A field of a request body: absent, present but rejected by its format validator
(`isInt`, `isFloat`, `isISO8601`), or a value of the right format. -/
inductive Input (α : Type) where
  | absent
  | malformed
  | value (a : α)
  deriving DecidableEq, Repr

/-- The body of an event create or update request, restricted to the paths the booking
routes read. `othersValid` says that the validators of the remaining fields (title,
description, category, location, locationType, time) pass. -/
structure EventBody where
  capacity : Input Int
  price : Input Int
  date : Input Date
  othersValid : Bool
  deriving DecidableEq, Repr

/-- Embedding of `body("capacity").isInt({ min: 1 })`, preceded by `.optional()` when
`optional` is set. -/
def capacityValid (optional : Bool) : Input Int → Bool
  | .absent => optional
  | .malformed => false
  | .value n => decide (1 ≤ n)

/-- Embedding of `body("price").isFloat({ min: 0 })`, preceded by `.optional()` when
`optional` is set. -/
def priceValid (optional : Bool) : Input Int → Bool
  | .absent => optional
  | .malformed => false
  | .value p => decide (0 ≤ p)

/-- Embedding of `body("date").isISO8601()`, preceded by `.optional()` when `optional`
is set. -/
def dateValid (optional : Bool) : Input Date → Bool
  | .absent => optional
  | .malformed => false
  | .value _ => true

/-- Embedding of `validationResult(req).isEmpty()` for the event validators. -/
def eventBodyValid (optional : Bool) (body : EventBody) : Bool :=
  body.othersValid && dateValid optional body.date && capacityValid optional body.capacity &&
    priceValid optional body.price

/-- Responses of the event routes. -/
inductive EventResult where
  /-- 403 "Access denied. Admin role required." from `adminAuth`. -/
  | forbidden
  /-- 400 with `errors.array()`. -/
  | validation
  /-- 404 "Event not found". -/
  | eventNotFound
  /-- 201 "Event created successfully". -/
  | created (event : Event)
  /-- 200 "Event updated successfully". -/
  | updated (event : Event)
  /-- 200 "Event deleted successfully". -/
  | deleted
  deriving DecidableEq, Repr

/-- Embedding of `Object.assign(event, req.body)` on the modelled paths: a path present in
the body overwrites the path of the document. -/
def assignBody (event : Event) (body : EventBody) : Event :=
  { event with
    capacity := match body.capacity with
      | .value c => c.toNat
      | _ => event.capacity
    price := match body.price with
      | .value p => p
      | _ => event.price
    date := match body.date with
      | .value d => d
      | _ => event.date }

/-- Embedding of `event.save()` on a loaded document: the stored document with the same
`_id` is replaced. -/
def saveEvent : List Event → Event → List Event
  | [], _ => []
  | e :: es, doc => if e.id = doc.id then doc :: es else e :: saveEvent es doc

/-- Handler of `POST /` of the event routes: `new Event({ ...req.body, createdBy })` and
`save()`. -/
def createEvent (db : Db) (user : User) (body : EventBody) (newId : ObjectId) :
    EventResult × Db :=
  if user.role ≠ Role.admin then
    (EventResult.forbidden, db)
  else if !eventBodyValid false body then
    (EventResult.validation, db)
  else
    let event := assignBody { id := newId, capacity := 0, price := 0, date := 0 } body
    (EventResult.created event, { db with events := db.events ++ [event] })

/-- Handler of `PUT /:id` of the event routes. -/
def updateEvent (db : Db) (user : User) (id : ObjectId) (body : EventBody) :
    EventResult × Db :=
  if user.role ≠ Role.admin then
    (EventResult.forbidden, db)
  else if !eventBodyValid true body then
    (EventResult.validation, db)
  else
    match findEventById db.events id with
    | none => (EventResult.eventNotFound, db)
    | some event =>
      let event := assignBody event body
      (EventResult.updated event, { db with events := saveEvent db.events event })

/-- Handler of `DELETE /:id` of the event routes: `Event.findByIdAndDelete(id)` after the
lookup. -/
def deleteEvent (db : Db) (user : User) (id : ObjectId) : EventResult × Db :=
  if user.role ≠ Role.admin then
    (EventResult.forbidden, db)
  else
    match findEventById db.events id with
    | none => (EventResult.eventNotFound, db)
    | some _ =>
      (EventResult.deleted, { db with events := db.events.eraseP (fun e => decide (e.id = id)) })

/-- A request to any of the mutating routes of the server. -/
inductive Op where
  | booking (request : Request)
  | createEvent (user : User) (body : EventBody) (newId : ObjectId)
  | updateEvent (user : User) (id : ObjectId) (body : EventBody)
  | deleteEvent (user : User) (id : ObjectId)
  deriving DecidableEq, Repr

/-- The database after serving one request to a mutating route. -/
def stepOp (db : Db) : Op → Db
  | .booking request => step db request
  | .createEvent user body newId => (createEvent db user body newId).2
  | .updateEvent user id body => (updateEvent db user id body).2
  | .deleteEvent user id => (deleteEvent db user id).2

/-- The database after serving the requests one at a time, in order. -/
def runOps (db : Db) (ops : List Op) : Db :=
  ops.foldl stepOp db

/-! ## Statistics: `GET /stats`, `GET /user-stats` -/

/-- The `stats` object of `GET /stats`. -/
structure Stats where
  totalBookings : Nat
  confirmedBookings : Nat
  cancelledBookings : Nat
  totalRevenue : Int
  deriving DecidableEq, Repr

/-- Embedding of `Booking.countDocuments(filter)` with an optional `status` filter. -/
def countDocuments (bookings : List Booking) (status : Option Status) : Nat :=
  match status with
  | none => bookings.length
  | some s => (bookings.filter (fun b => decide (b.status = s))).length

/-- Embedding of the pipeline
`[{ $match: { status: "confirmed" } }, { $group: { _id: null, total: { $sum: "$totalAmount" } } }]`. -/
def aggregateRevenue (bookings : List Booking) : List Int :=
  match bookings.filter (fun b => decide (b.status = Status.confirmed)) with
  | [] => []
  | m :: ms => [(m :: ms).foldl (fun total b => total + b.totalAmount) 0]

/-- Responses of `GET /stats`. -/
inductive StatsResult where
  /-- 403 "Access denied. Admin role required." from `adminAuth`. -/
  | forbidden
  /-- 200 with the `stats` object. -/
  | ok (stats : Stats)
  deriving DecidableEq, Repr

/-- Handler of `GET /stats`. -/
def getStats (db : Db) (user : User) : StatsResult :=
  if user.role ≠ Role.admin then
    StatsResult.forbidden
  else
    let totalBookings := countDocuments db.bookings none
    let confirmedBookings := countDocuments db.bookings (some Status.confirmed)
    let cancelledBookings := countDocuments db.bookings (some Status.cancelled)
    let totalRevenue := aggregateRevenue db.bookings
    StatsResult.ok
      { totalBookings := totalBookings
        confirmedBookings := confirmedBookings
        cancelledBookings := cancelledBookings
        totalRevenue := match totalRevenue with
          | [] => 0
          | r :: _ => r }

/-- The `stats` object of `GET /user-stats`. -/
structure UserStats where
  totalBookings : Nat
  confirmedBookings : Nat
  cancelledBookings : Nat
  totalSpent : Int
  deriving DecidableEq, Repr

/-- Handler of `GET /user-stats`. -/
def getUserStats (db : Db) (user : User) : UserStats :=
  let userBookings := db.bookings.filter (fun b => decide (b.user = user.id))
  { totalBookings := userBookings.length
    confirmedBookings :=
      (userBookings.filter (fun booking => decide (booking.status = Status.confirmed))).length
    cancelledBookings :=
      (userBookings.filter (fun booking => decide (booking.status = Status.cancelled))).length
    totalSpent :=
      (userBookings.filter (fun booking => decide (booking.status = Status.confirmed))).foldl
        (fun total booking => total + booking.totalAmount) 0 }

/-! ## Derived event status, own bookings, maintenance script, booking section -/

/-- The values of the `status` virtual of `eventSchema`. -/
inductive EventStatus where
  | completed
  | ongoing
  | upcoming
  deriving DecidableEq, Repr

/-- Embedding of `eventSchema.virtual("status")`, read at clock time `now`. -/
def Event.status (event : Event) (now : Date) : EventStatus :=
  if isBeforeDay event.date now then
    EventStatus.completed
  else if isSameDay event.date now then
    EventStatus.ongoing
  else
    EventStatus.upcoming

/-- The order of `.sort({ bookingDate: -1 })`: the first argument is not older than the
second. -/
def newestFirst (a b : Booking) : Prop := b.bookingDate ≤ a.bookingDate

instance newestFirstDecidable : DecidableRel newestFirst :=
  fun a b => Nat.decLe b.bookingDate a.bookingDate

/-- Handler of `GET /my-bookings`:
`Booking.find({ user }).populate("event").sort({ bookingDate: -1 })`. Each booking comes
with its populated event, null when the event no longer exists. -/
def getMyBookings (db : Db) (user : User) : List (Booking × Option Event) :=
  ((db.bookings.filter (fun b => decide (b.user = user.id))).insertionSort newestFirst).map
    (fun b => (b, findEventById db.events b.event))

/-- Embedding of `scripts/clearBookings.js`: `Booking.deleteMany({})`. -/
def clearBookings (db : Db) : Db :=
  { db with bookings := [] }

/-- Embedding of the guard of the booking section of `EventDetailPage.js`,
`user?.role !== "admin"`. -/
def bookingSectionShown (user : Option User) : Bool :=
  match user with
  | some u => decide (u.role ≠ Role.admin)
  | none => true

/-! ## Amounts as doubles -/

/-- Number of binary digits of `k` beyond the 53 of a double's significand, found by
halving at most `fuel` times. -/
def excessBits : Nat → Nat → Nat
  | 0, _ => 0
  | fuel + 1, k => if k < 2 ^ 53 then 0 else excessBits fuel (k / 2) + 1

/-- Round a non-negative real number, given as a multiple of `2 ^ (-64)`, to the nearest
double, ties to even: the rounding of IEEE 754 binary64 below its overflow threshold.
Every double that is zero or at least `2 ^ (-12)` is a multiple of `2 ^ (-64)`, and the
rounded sum of two such doubles is one again. -/
def roundDouble (k : Nat) : Nat :=
  if k < 2 ^ 53 then
    k
  else
    let shift := excessBits k k
    let q := k >>> shift
    let r := k % 2 ^ shift
    let half := 2 ^ (shift - 1)
    (if r > half ∨ (r = half ∧ q % 2 = 1) then q + 1 else q) <<< shift

/-- Embedding of `a + b` on non-negative JavaScript numbers, in multiples of `2 ^ (-64)`. -/
def addDouble (a b : Nat) : Nat := roundDouble (a + b)

/-- The paths of a stored booking that the revenue figures read, `totalAmount` being the
double that is stored, in multiples of `2 ^ (-64)`. -/
structure Payment where
  user : ObjectId
  status : Status
  totalAmount : Nat
  deriving DecidableEq, Repr

/-- The `totalRevenue` of `GET /stats` on double amounts: `$sum` over the confirmed
bookings, accumulated in stored order. -/
def totalRevenueDouble (payments : List Payment) : Nat :=
  match payments.filter (fun p => decide (p.status = Status.confirmed)) with
  | [] => 0
  | m :: ms => (m :: ms).foldl (fun total p => addDouble total p.totalAmount) 0

/-- The `totalSpent` of `GET /user-stats` on double amounts:
`.filter(confirmed).reduce((total, booking) => total + booking.totalAmount, 0)`. -/
def totalSpentDouble (payments : List Payment) (user : ObjectId) : Nat :=
  ((payments.filter (fun p => decide (p.user = user))).filter
    (fun p => decide (p.status = Status.confirmed))).foldl
    (fun total p => addDouble total p.totalAmount) 0

/-! ## Specification-side notions -/

/-- Sum of `seats` over the bookings of `event` with status confirmed. -/
def confirmedSeats (bookings : List Booking) (event : ObjectId) : Int :=
  ((bookings.filter (fun b => decide (b.event = event ∧ b.status = Status.confirmed))).map
    (fun b => b.seats)).sum

/-- Number of confirmed bookings of a (user, event) pair. -/
def confirmedCount (bookings : List Booking) (user event : ObjectId) : Nat :=
  bookings.countP (fun b => decide (b.user = user ∧ b.event = event ∧ b.status = Status.confirmed))

/-- Rule 1 of the create operation: the seat count is an integer in [1,2]. -/
def seatsRule (body : CreateBody) : Bool :=
  match body.seats with
  | some n => decide (1 ≤ n ∧ n ≤ 2)
  | none => false

/-- The event the identifier of a create request resolves to, if any. -/
def requestedEvent (db : Db) (body : CreateBody) : Option Event :=
  match body.eventId with
  | some e => findEventById db.events e
  | none => none

/-- Rule 2: the event identifier resolves to an existing event. -/
def eventRule (db : Db) (body : CreateBody) : Bool :=
  (requestedEvent db body).isSome

/-- Rule 3: the event's date is not strictly before today, at day granularity.
A request whose event does not resolve does not fail this rule. -/
def dateRule (db : Db) (body : CreateBody) (now : Date) : Bool :=
  match requestedEvent db body with
  | some event => decide (dayOf now ≤ dayOf event.date)
  | none => true

/-- Rule 4: the requesting user has no confirmed booking for the requested event. -/
def duplicateRule (db : Db) (user : User) (body : CreateBody) : Bool :=
  match body.eventId with
  | some e => decide (confirmedCount db.bookings user.id e = 0)
  | none => true

/-- Rule 5: requested seats are at most capacity minus the confirmed seats of the event.
A request without an integer seat count or a resolving event does not fail this rule. -/
def capacityRule (db : Db) (body : CreateBody) : Bool :=
  match requestedEvent db body, body.seats with
  | some event, some n => decide (n ≤ (event.capacity : Int) - confirmedSeats db.bookings event.id)
  | _, _ => true

/-- Failure kinds of the create operation. -/
inductive CreateFailure where
  | validation
  | notFound
  | pastEvent
  | duplicate
  | capacityExceeded
  | internal
  deriving DecidableEq, Repr

/-- Failure kind of a create response; `none` for a success. -/
def CreateResult.failure : CreateResult → Option CreateFailure
  | .validation _ => some CreateFailure.validation
  | .eventNotFound => some CreateFailure.notFound
  | .pastEvent => some CreateFailure.pastEvent
  | .duplicate => some CreateFailure.duplicate
  | .capacityExceeded _ => some CreateFailure.capacityExceeded
  | .created _ => none
  | .serverError => some CreateFailure.internal

/-- The rejection of the first failing rule, in the order of the specification;
`none` when no rule fails. -/
def firstFailure (db : Db) (user : User) (body : CreateBody) (now : Date) :
    Option CreateFailure :=
  if !seatsRule body then some CreateFailure.validation
  else if !eventRule db body then some CreateFailure.notFound
  else if !dateRule db body now then some CreateFailure.pastEvent
  else if !duplicateRule db user body then some CreateFailure.duplicate
  else if !capacityRule db body then some CreateFailure.capacityExceeded
  else none

/-- Number of the five rules that fail. -/
def failedRules (db : Db) (user : User) (body : CreateBody) (now : Date) : Nat :=
  (if seatsRule body then 0 else 1) + (if eventRule db body then 0 else 1) +
  (if dateRule db body now then 0 else 1) + (if duplicateRule db user body then 0 else 1) +
  (if capacityRule db body then 0 else 1)

/-- Failure kinds of the cancel operation. -/
inductive CancelFailure where
  | notFound
  | forbidden
  | eventStarted
  | alreadyCancelled
  | internal
  deriving DecidableEq, Repr

/-- Failure kind of a cancel response; `none` for a success. -/
def CancelResult.failure : CancelResult → Option CancelFailure
  | .bookingNotFound => some CancelFailure.notFound
  | .forbidden => some CancelFailure.forbidden
  | .eventStarted => some CancelFailure.eventStarted
  | .alreadyCancelled => some CancelFailure.alreadyCancelled
  | .cancelled _ => none
  | .serverError => some CancelFailure.internal

/-- The event's date is strictly after today, at day granularity; false for a booking whose
event does not resolve. -/
def eventAfterToday (db : Db) (booking : Booking) (now : Date) : Bool :=
  match findEventById db.events booking.event with
  | some event => decide (dayOf now < dayOf event.date)
  | none => false

/-- The rejection of the first failing cancel rule, in the order of the specification:
the booking exists, the requester owns it, the event's date is strictly after today, the
booking is not already cancelled; `none` when all four hold. -/
def firstCancelFailure (db : Db) (user : User) (id : ObjectId) (now : Date) :
    Option CancelFailure :=
  match findBookingById db.bookings id with
  | none => some CancelFailure.notFound
  | some booking =>
    if booking.user ≠ user.id then some CancelFailure.forbidden
    else if !eventAfterToday db booking now then some CancelFailure.eventStarted
    else if booking.status = Status.cancelled then some CancelFailure.alreadyCancelled
    else none

/-- Every stored booking has a non-negative seat count. -/
def SeatsNonneg (bookings : List Booking) : Prop :=
  ∀ b ∈ bookings, 0 ≤ b.seats

/-- No event is overbooked: the confirmed seats of every event that resolves are at most
its capacity. -/
def WithinCapacity (db : Db) : Prop :=
  ∀ E : Event, findEventById db.events E.id = some E →
    confirmedSeats db.bookings E.id ≤ (E.capacity : Int)

/-- No (user, event) pair has more than one confirmed booking. -/
def NoDuplicate (bookings : List Booking) : Prop :=
  ∀ u e : ObjectId, confirmedCount bookings u e ≤ 1

/-- How a stored booking may differ later on: it is the same document, or it was confirmed
and is now its cancelled copy, stamped with some time. -/
def Evolves (b later : Booking) : Prop :=
  later = b ∨ (b.status = Status.confirmed ∧ ∃ t, later = markCancelled b t)

/-- For every stored booking, `cancelledAt` is set if and only if its status is cancelled. -/
def CancelledAtIffCancelled (bookings : List Booking) : Prop :=
  ∀ b ∈ bookings, (b.cancelledAt.isSome = true ↔ b.status = Status.cancelled)

/-- Sum of `totalAmount` over the bookings with status confirmed. -/
def confirmedRevenue (bookings : List Booking) : Int :=
  ((bookings.filter (fun b => decide (b.status = Status.confirmed))).map
    (fun b => b.totalAmount)).sum

/-- Sum of `totalAmount` over the confirmed bookings owned by `user`. -/
def confirmedSpent (bookings : List Booking) (user : ObjectId) : Int :=
  ((bookings.filter (fun b => decide (b.user = user ∧ b.status = Status.confirmed))).map
    (fun b => b.totalAmount)).sum

/-! ## Sample data -/

/-- Noon of day `d`. -/
def noonOf (d : Nat) : Date := d * msPerDay + 43200000

/-- The clock of the sample requests: noon of day 10. -/
def sampleNow : Date := noonOf 10

/-- An event on day 20 with capacity 2 and price 50. -/
def concert : Event := { id := 1, capacity := 2, price := 50, date := noonOf 20 }

/-- An event on day 9, the day before `sampleNow`, with capacity 1. -/
def lecture : Event := { id := 2, capacity := 1, price := 30, date := 9 * msPerDay + 3600000 }

/-- A regular user. -/
def userA : User := { id := 101, role := Role.user }

/-- A second regular user. -/
def userB : User := { id := 102, role := Role.user }

/-- A database with both sample events and no booking. -/
def emptyDb : Db := { events := [concert, lecture], bookings := [] }

/-- A database in which `userA` holds both seats of `concert` and the only seat of `lecture`. -/
def fullDb : Db :=
  { events := [concert, lecture]
    bookings :=
      [ { id := 7, user := 101, event := 1, seats := 2, totalAmount := 100,
          status := Status.confirmed, bookingDate := noonOf 8, cancelledAt := none },
        { id := 8, user := 101, event := 2, seats := 1, totalAmount := 30,
          status := Status.confirmed, bookingDate := noonOf 8, cancelledAt := none } ] }

/-- A database in which the event of the only booking has been deleted. -/
def orphanDb : Db :=
  { events := [lecture]
    bookings :=
      [ { id := 7, user := 101, event := 1, seats := 2, totalAmount := 100,
          status := Status.confirmed, bookingDate := noonOf 8, cancelledAt := none } ] }

/-- A sequence of requests on the sample concert: `userA` books two seats, `userB` asks for
one, `userA` asks again, `userA` cancels, `userB` asks for one seat again. -/
def sampleRequests : List Request :=
  [ Request.create userA { eventId := some 1, seats := some 2 } sampleNow 7,
    Request.create userB { eventId := some 1, seats := some 1 } sampleNow 8,
    Request.create userA { eventId := some 1, seats := some 1 } sampleNow 9,
    Request.cancel userA 7 (noonOf 11),
    Request.create userB { eventId := some 1, seats := some 1 } (noonOf 12) 10 ]

/-- The booking of `userA` for both seats of `concert`, as stored in `fullDb`. -/
def heldBooking : Booking :=
  { id := 7, user := 101, event := 1, seats := 2, totalAmount := 100,
    status := Status.confirmed, bookingDate := noonOf 8, cancelledAt := none }

/-- An administrator. -/
def adminUser : User := { id := 100, role := Role.admin }

/-- A database in which the only booking, of `userA` for `concert`, is already cancelled. -/
def cancelledDb : Db :=
  { events := [concert, lecture]
    bookings :=
      [ { id := 7, user := 101, event := 1, seats := 2, totalAmount := 100,
          status := Status.cancelled, bookingDate := noonOf 8, cancelledAt := some (noonOf 9) } ] }

/-- The state after the sample sequence: the cancelled booking of `userA` (two seats,
amount 100) and the confirmed booking of `userB` (one seat, amount 50). -/
def statsDb : Db := run emptyDb sampleRequests

/-- One event of capacity 2 and price 50 dated after today, and no booking. -/
def scenarioDb : Db := { events := [concert], bookings := [] }

/-- Scenario step 1: `userA` books two seats. -/
def scenario1 : CreateResult × Db :=
  createBooking scenarioDb userA { eventId := some 1, seats := some 2 } sampleNow 7

/-- Scenario step 2: `userB` asks for one seat. -/
def scenario2 : CreateResult × Db :=
  createBooking scenario1.2 userB { eventId := some 1, seats := some 1 } sampleNow 8

/-- Scenario step 3: `userA` cancels. -/
def scenario3 : CancelResult × Db :=
  cancelBooking scenario2.2 userA 7 sampleNow

/-- Scenario step 4: `userB` asks for one seat again. -/
def scenario4 : CreateResult × Db :=
  createBooking scenario3.2 userB { eventId := some 1, seats := some 1 } sampleNow 9

/-- An update of the price alone, to 80. -/
def priceUpdate : EventBody :=
  { capacity := Input.absent, price := Input.value 80, date := Input.absent, othersValid := true }

/-- An update of the capacity alone, to 5. -/
def capacityUpdate : EventBody :=
  { capacity := Input.value 5, price := Input.absent, date := Input.absent, othersValid := true }

/-- The state after the administrator deleted `concert` from `fullDb`. -/
def deletedDb : Db := (deleteEvent fullDb adminUser 1).2

/-- An event dated on the day of `sampleNow`, in the evening. -/
def tonight : Event := { id := 3, capacity := 2, price := 20, date := 10 * msPerDay + 72000000 }

/-- A database with the event of tonight and no booking. -/
def tonightDb : Db := { events := [tonight], bookings := [] }

/-- An event on day 20 with a single seat. -/
def workshop : Event := { id := 4, capacity := 1, price := 30, date := noonOf 20 }

/-- A database with the workshop and no booking. -/
def soloDb : Db := { events := [workshop], bookings := [] }

/-- A database in which `userA` holds the single seat of the workshop. -/
def soloFullDb : Db :=
  { events := [workshop]
    bookings :=
      [ { id := 7, user := 101, event := 4, seats := 1, totalAmount := 30,
          status := Status.confirmed, bookingDate := noonOf 8, cancelledAt := none } ] }

/-- Two requests for both seats of the sample concert, by `userA` and by `userB`. -/
def overbookRequests : List Request :=
  [ Request.create userA { eventId := some 1, seats := some 2 } sampleNow 7,
    Request.create userB { eventId := some 1, seats := some 2 } sampleNow 8 ]

/-- The requests by which `userA` books the seat of the workshop and cancels it. -/
def soloRequests : List Request :=
  [ Request.create userA { eventId := some 4, seats := some 1 } sampleNow 7,
    Request.cancel userA 7 sampleNow ]

/-- The double nearest to 0.1, in multiples of `2 ^ (-64)`. -/
def tenth : Nat := 3602879701896397 * 2 ^ 9

/-- The double nearest to 0.2. -/
def twoTenths : Nat := 3602879701896397 * 2 ^ 10

/-- The double nearest to 0.3. -/
def threeTenths : Nat := 5404319552844595 * 2 ^ 10

/-- The double nearest to 0.4. -/
def fourTenths : Nat := 3602879701896397 * 2 ^ 11

/-- Confirmed bookings of 0.1 by user 101 and of 0.2 and 0.3 by user 102, in stored order. -/
def tenthsPaid : List Payment :=
  [ { user := 101, status := Status.confirmed, totalAmount := tenth },
    { user := 102, status := Status.confirmed, totalAmount := twoTenths },
    { user := 102, status := Status.confirmed, totalAmount := threeTenths } ]

/-- Confirmed bookings of 0.1 by user 101, 0.1 by user 102 and 0.4 by user 101, in stored
order. -/
def mixedPaid : List Payment :=
  [ { user := 101, status := Status.confirmed, totalAmount := tenth },
    { user := 102, status := Status.confirmed, totalAmount := tenth },
    { user := 101, status := Status.confirmed, totalAmount := fourTenths } ]

/-! ## Lemmas on the embedding -/

theorem endOfDay_lt_iff (a b : Nat) :
    a - a % 86400000 + (86400000 - 1) < b ↔ a / 86400000 < b / 86400000 := by
  omega

theorem sameDay_or_before_iff (a b : Nat) :
    ((a - a % 86400000 ≤ b ∧ b ≤ a - a % 86400000 + (86400000 - 1)) ∨
      a - a % 86400000 + (86400000 - 1) < b) ↔ a / 86400000 ≤ b / 86400000 := by
  omega

theorem isBeforeDay_iff (a b : Date) : isBeforeDay a b = true ↔ dayOf a < dayOf b := by
  unfold isBeforeDay
  rw [decide_eq_true_iff]
  exact endOfDay_lt_iff a b

theorem isSameOrBeforeDay_iff (a b : Date) :
    isSameOrBeforeDay a b = true ↔ dayOf a ≤ dayOf b := by
  unfold isSameOrBeforeDay isSameDay isBeforeDay
  rw [Bool.or_eq_true, decide_eq_true_iff, decide_eq_true_iff]
  exact sameDay_or_before_iff a b

theorem aggregateTotalSeats_eq (bs : List Booking) (e : ObjectId) :
    aggregateTotalSeats bs e = [] := by
  unfold aggregateTotalSeats
  rw [List.filter_eq_nil_iff.2 (fun b _ => by simp)]

theorem bookedSeatsOf_aggregate (bs : List Booking) (e : ObjectId) :
    bookedSeatsOf (aggregateTotalSeats bs e) = 0 := by
  rw [aggregateTotalSeats_eq]
  rfl

theorem findEventById_id {events : List Event} {id : ObjectId} {event : Event}
    (h : findEventById events id = some event) : event.id = id := by
  unfold findEventById at h
  simpa using List.find?_some h

theorem findBookingById_id {bs : List Booking} {id : ObjectId} {b : Booking}
    (h : findBookingById bs id = some b) : b.id = id := by
  unfold findBookingById at h
  simpa using List.find?_some h

theorem findBookingById_mem {bs : List Booking} {id : ObjectId} {b : Booking}
    (h : findBookingById bs id = some b) : b ∈ bs := by
  unfold findBookingById at h
  exact List.mem_of_find?_eq_some h

theorem findOneConfirmed_eq_none_iff (bs : List Booking) (u e : ObjectId) :
    findOneConfirmed bs u e = none ↔ confirmedCount bs u e = 0 := by
  unfold findOneConfirmed confirmedCount
  rw [List.find?_eq_none, List.countP_eq_zero]

theorem validationResult_eq_nil_iff (body : CreateBody) :
    validationResult body = [] ↔
      ∃ e n, body.eventId = some e ∧ body.seats = some n ∧ 1 ≤ n ∧ n ≤ 2 := by
  rcases body with ⟨_ | e, _ | n⟩ <;> simp [validationResult, seatsIsInt]

theorem createBooking_invalid (db : Db) (user : User) (body : CreateBody) (now : Date)
    (newId : ObjectId) (h : validationResult body ≠ []) :
    createBooking db user body now newId = (CreateResult.validation (validationResult body), db) := by
  unfold createBooking
  rw [if_pos h]

theorem createBooking_valid (db : Db) (user : User) (body : CreateBody) (now : Date)
    (newId : ObjectId) {e : ObjectId} {n : Int} (he : body.eventId = some e)
    (hs : body.seats = some n) (hn : 1 ≤ n ∧ n ≤ 2) :
    createBooking db user body now newId =
      match findEventById db.events e with
      | none => (CreateResult.eventNotFound, db)
      | some event =>
        if dayOf event.date < dayOf now then (CreateResult.pastEvent, db)
        else if confirmedCount db.bookings user.id e ≠ 0 then (CreateResult.duplicate, db)
        else if n > (event.capacity : Int) then
          (CreateResult.capacityExceeded (event.capacity : Int), db)
        else
          (CreateResult.created (newBooking user event e n now newId),
            { db with bookings := db.bookings ++ [newBooking user event e n now newId] }) := by
  have hv : validationResult body = [] :=
    (validationResult_eq_nil_iff body).2 ⟨e, n, he, hs, hn.1, hn.2⟩
  unfold createBooking
  rw [if_neg (by simp [hv]), he, hs]
  simp only []
  cases hf : findEventById db.events e with
  | none => rfl
  | some event =>
    simp only []
    by_cases hd : dayOf event.date < dayOf now
    · rw [if_pos ((isBeforeDay_iff _ _).2 hd), if_pos hd]
    · rw [if_neg (fun h => hd ((isBeforeDay_iff _ _).1 h)), if_neg hd]
      by_cases hc : confirmedCount db.bookings user.id e = 0
      · have hnone := (findOneConfirmed_eq_none_iff db.bookings user.id e).2 hc
        rw [hnone]
        simp only [bookedSeatsOf_aggregate, sub_zero, hc, ne_eq, not_true_eq_false, if_false]
      · have hsome : findOneConfirmed db.bookings user.id e ≠ none :=
          fun h => hc ((findOneConfirmed_eq_none_iff db.bookings user.id e).1 h)
        rw [if_pos hc]
        cases hq : findOneConfirmed db.bookings user.id e with
        | none => exact absurd hq hsome
        | some _ => rfl

/-! ## Create booking -/

theorem requestedEvent_some (db : Db) (body : CreateBody) (e : ObjectId)
    (he : body.eventId = some e) : requestedEvent db body = findEventById db.events e := by
  unfold requestedEvent
  rw [he]

theorem code_eq_created_iff (r : CreateResult) : r.code = 201 ↔ r.failure = none := by
  cases r <;> simp [CreateResult.code, CreateResult.failure]

theorem firstFailure_eq_none_iff (db : Db) (user : User) (body : CreateBody) (now : Date) :
    firstFailure db user body now = none ↔
      (seatsRule body = true ∧ eventRule db body = true ∧ dateRule db body now = true ∧
        duplicateRule db user body = true ∧ capacityRule db body = true) := by
  unfold firstFailure
  cases seatsRule body <;> cases eventRule db body <;> cases dateRule db body now <;>
    cases duplicateRule db user body <;> cases capacityRule db body <;> simp

/-- Shape of a successful create: the request was well-formed, the event resolved, and the
database gained the freshly built document at the end of the bookings collection. -/
theorem createBooking_created (db : Db) (user : User) (body : CreateBody) (now : Date)
    (newId : ObjectId) (b : Booking)
    (h : (createBooking db user body now newId).1 = CreateResult.created b) :
    ∃ e n event, body.eventId = some e ∧ body.seats = some n ∧ (1 ≤ n ∧ n ≤ 2) ∧
      findEventById db.events e = some event ∧ b = newBooking user event e n now newId ∧
      (createBooking db user body now newId).2 = { db with bookings := db.bookings ++ [b] } := by
  by_cases hv : validationResult body = []
  · obtain ⟨e, n, he, hs, h1, h2⟩ := (validationResult_eq_nil_iff body).1 hv
    refine ⟨e, n, ?_⟩
    rw [createBooking_valid db user body now newId he hs ⟨h1, h2⟩] at h ⊢
    cases hf : findEventById db.events e with
    | none => rw [hf] at h; simp at h
    | some event =>
      rw [hf] at h
      simp only at h ⊢
      refine ⟨event, he, hs, ⟨h1, h2⟩, rfl, ?_⟩
      split_ifs at h ⊢ with hd hc hcap
      simp only [Prod.mk.injEq, CreateResult.created.injEq] at h
      exact ⟨h.symm, by rw [h]⟩
  · rw [createBooking_invalid db user body now newId hv] at h
    simp at h

/-- A create request that is not answered with `created` leaves the database as it was. -/
theorem createBooking_rejected (db : Db) (user : User) (body : CreateBody) (now : Date)
    (newId : ObjectId) (h : (createBooking db user body now newId).1.failure ≠ none) :
    (createBooking db user body now newId).2 = db := by
  by_cases hv : validationResult body = []
  · obtain ⟨e, n, he, hs, h1, h2⟩ := (validationResult_eq_nil_iff body).1 hv
    rw [createBooking_valid db user body now newId he hs ⟨h1, h2⟩] at h ⊢
    cases hf : findEventById db.events e with
    | none => rfl
    | some event =>
      rw [hf] at h
      simp only at h ⊢
      split_ifs at h ⊢ with hd hc hcap
      all_goals first | rfl | simp [CreateResult.failure] at h
  · rw [createBooking_invalid db user body now newId hv]

/-- C5: a successful create appends exactly one booking to the stored bookings; its user is
the requester, its event and seats are the requested ones, its status is confirmed,
`cancelledAt` is unset, `bookingDate` is the current time and `totalAmount` is the requested
seats times the price of the event as stored at that moment; the bookings stored before and
the events are unchanged. -/
theorem create_effect (db : Db) (user : User) (body : CreateBody) (now : Date)
    (newId : ObjectId) (b : Booking)
    (h : (createBooking db user body now newId).1 = CreateResult.created b) :
    (createBooking db user body now newId).2.bookings = db.bookings ++ [b] ∧
    (createBooking db user body now newId).2.events = db.events ∧
    b.user = user.id ∧ body.eventId = some b.event ∧ body.seats = some b.seats ∧
    b.status = Status.confirmed ∧ b.cancelledAt = none ∧ b.bookingDate = now ∧
    ∃ event, findEventById db.events b.event = some event ∧
      b.totalAmount = b.seats * event.price := by
  obtain ⟨e, n, event, he, hs, _, hf, hb, h2⟩ := createBooking_created db user body now newId b h
  rw [h2]
  subst hb
  exact ⟨rfl, rfl, rfl, he, hs, rfl, rfl, rfl, event, hf, Int.mul_comm _ _⟩

/-- C6: every rejected create request (any response other than the 201 success) leaves the
database, and so the set of bookings, exactly as it was. -/
theorem create_rejected_unchanged (db : Db) (user : User) (body : CreateBody) (now : Date)
    (newId : ObjectId) (h : (createBooking db user body now newId).1.code ≠ 201) :
    (createBooking db user body now newId).2 = db :=
  createBooking_rejected db user body now newId
    (fun hnone => h ((code_eq_created_iff _).2 hnone))

/-- C4: create-booking fails fast in the stated order: whenever more than one of the five
rules fails, the response is the rejection of the first failing rule in the order seat
validation, event not found, past event, duplicate booking, capacity exceeded. -/
theorem create_fail_fast (db : Db) (user : User) (body : CreateBody) (now : Date)
    (newId : ObjectId) (h : 2 ≤ failedRules db user body now) :
    (createBooking db user body now newId).1.failure = firstFailure db user body now := by
  by_cases hs : seatsRule body = true
  · cases he : body.eventId with
    | none =>
      exfalso
      have : failedRules db user body now = 1 := by
        simp [failedRules, hs, eventRule, dateRule, duplicateRule, capacityRule, requestedEvent,
          he]
      omega
    | some e =>
      cases hn' : body.seats with
      | none => simp [seatsRule, hn'] at hs
      | some n =>
        have hn : 1 ≤ n ∧ n ≤ 2 := by simpa [seatsRule, hn'] using hs
        rw [createBooking_valid db user body now newId he hn' hn]
        unfold failedRules at h
        unfold firstFailure
        unfold eventRule dateRule duplicateRule at h ⊢
        rw [requestedEvent_some db body e he, hs, he] at h ⊢
        cases hf : findEventById db.events e with
        | none => simp [CreateResult.failure]
        | some event =>
          rw [hf] at h
          simp only [Option.isSome_some, Bool.not_true, Bool.false_eq_true, if_false] at h ⊢
          by_cases hd : dayOf event.date < dayOf now
          · simp [hd, CreateResult.failure]
          · rw [if_neg hd]
            have hd' : dayOf now ≤ dayOf event.date := Nat.le_of_not_lt hd
            by_cases hc : confirmedCount db.bookings user.id e = 0
            · exfalso
              simp only [hd', hc, decide_True, if_true] at h
              split_ifs at h <;> omega
            · simp [hd', hc, CreateResult.failure]
  · have hv : validationResult body ≠ [] := by
      intro hv
      obtain ⟨e, n, _, hn', h1, h2⟩ := (validationResult_eq_nil_iff body).1 hv
      exact hs (by simp [seatsRule, hn', h1, h2])
    rw [createBooking_invalid db user body now newId hv]
    simp [firstFailure, hs, CreateResult.failure]

/-- Witness for C4: a past event on which the requester already holds a confirmed booking is
rejected as past-event, and a duplicate on a full event is rejected as duplicate. -/
theorem create_fail_fast_witness :
    (2 ≤ failedRules fullDb userA { eventId := some 2, seats := some 1 } sampleNow ∧
      (createBooking fullDb userA { eventId := some 2, seats := some 1 } sampleNow 9).1.failure =
        some CreateFailure.pastEvent) ∧
    (2 ≤ failedRules fullDb userA { eventId := some 1, seats := some 1 } sampleNow ∧
      (createBooking fullDb userA { eventId := some 1, seats := some 1 } sampleNow 9).1.failure =
        some CreateFailure.duplicate) :=
  ⟨⟨by decide, (create_fail_fast fullDb userA _ sampleNow 9 (by decide)).trans (by decide)⟩,
    ⟨by decide, (create_fail_fast fullDb userA _ sampleNow 9 (by decide)).trans (by decide)⟩⟩

/-- What the handler accepts: a create request is answered 201 exactly when the first four
rules hold and the requested seats do not exceed the event's capacity. -/
theorem create_accepts_iff (db : Db) (user : User) (body : CreateBody) (now : Date)
    (newId : ObjectId) :
    (createBooking db user body now newId).1.code = 201 ↔
      (seatsRule body = true ∧ eventRule db body = true ∧ dateRule db body now = true ∧
        duplicateRule db user body = true) ∧
      ∃ event n, requestedEvent db body = some event ∧ body.seats = some n ∧
        n ≤ (event.capacity : Int) := by
  by_cases hv : validationResult body = []
  · obtain ⟨e, n, he, hs, h1, h2⟩ := (validationResult_eq_nil_iff body).1 hv
    rw [createBooking_valid db user body now newId he hs ⟨h1, h2⟩]
    unfold eventRule dateRule duplicateRule seatsRule
    rw [requestedEvent_some db body e he, he, hs]
    cases hf : findEventById db.events e with
    | none => simp [CreateResult.code]
    | some event =>
      simp only [Option.isSome_some, Option.some.injEq]
      by_cases hd : dayOf event.date < dayOf now
      · simp [hd, CreateResult.code]
      · have hd' : dayOf now ≤ dayOf event.date := Nat.le_of_not_lt hd
        rw [if_neg hd]
        by_cases hc : confirmedCount db.bookings user.id e = 0
        · by_cases hcap : n > (event.capacity : Int)
          · simp only [hc, ne_eq, not_true_eq_false, if_false, hcap, if_true]
            constructor
            · intro hk
              exact absurd hk (by simp [CreateResult.code])
            · rintro ⟨_, ev, m, hev, hm, hle⟩
              rw [← hev, ← hm] at hle
              omega
          · simp only [hc, ne_eq, not_true_eq_false, if_false, hcap]
            constructor
            · intro _
              exact ⟨⟨by simp [h1, h2], trivial, by simp [hd'], by simp⟩, event, n, rfl, rfl,
                Int.not_lt.1 hcap⟩
            · intro _
              rfl
        · simp [hc, CreateResult.code]
  · rw [createBooking_invalid db user body now newId hv]
    constructor
    · intro h
      exact absurd h (by simp [CreateResult.code])
    · rintro ⟨⟨hs, hev, _, _⟩, _⟩
      exfalso
      apply hv
      rw [validationResult_eq_nil_iff]
      cases he : body.eventId with
      | none => simp [eventRule, requestedEvent, he] at hev
      | some e =>
        cases hn : body.seats with
        | none => simp [seatsRule, hn] at hs
        | some n =>
          have : 1 ≤ n ∧ n ≤ 2 := by simpa [seatsRule, hn] using hs
          exact ⟨e, n, rfl, rfl, this.1, this.2⟩

/-- C3, evaluated where the code departs from it: both seats of the sample concert are
held by `userA`, so the fifth condition fails for `userB`'s request for one seat (1 is
more than 2 minus 2), yet the request is answered 201 and a third seat is confirmed. -/
theorem create_accepts_on_full_event :
    (findEventById fullDb.events 1).map (fun e => e.capacity) = some 2 ∧
    confirmedSeats fullDb.bookings 1 = 2 ∧
    (seatsRule { eventId := some 1, seats := some 1 } = true ∧
      eventRule fullDb { eventId := some 1, seats := some 1 } = true ∧
      dateRule fullDb { eventId := some 1, seats := some 1 } sampleNow = true ∧
      duplicateRule fullDb userB { eventId := some 1, seats := some 1 } = true ∧
      capacityRule fullDb { eventId := some 1, seats := some 1 } = false) ∧
    (createBooking fullDb userB { eventId := some 1, seats := some 1 } sampleNow 9).1 =
      CreateResult.created (newBooking userB concert 1 1 sampleNow 9) ∧
    (createBooking fullDb userB { eventId := some 1, seats := some 1 } sampleNow 9).1.code = 201 ∧
    confirmedSeats
      (createBooking fullDb userB { eventId := some 1, seats := some 1 } sampleNow 9).2.bookings
      1 = 3 := by
  decide

/-- C7, evaluated where the code departs from it: `userA` holds the single seat of the
workshop, so no seat is available. A request for two seats is rejected reporting 1, the
capacity itself, and a request for one seat, which is more than the 0 available, is not
rejected at all. -/
theorem capacity_rejection_on_code :
    (workshop.capacity : Int) - confirmedSeats soloFullDb.bookings 4 = 0 ∧
    (createBooking soloFullDb userB { eventId := some 4, seats := some 2 } sampleNow 9).1 =
      CreateResult.capacityExceeded 1 ∧
    (createBooking soloFullDb userB { eventId := some 4, seats := some 1 } sampleNow 9).1.code =
      201 := by
  decide

/-- Witness for C5: `userB` books one seat of the sample concert. -/
theorem create_effect_witness :
    (createBooking emptyDb userB { eventId := some 1, seats := some 1 } sampleNow 9).2.bookings =
      emptyDb.bookings ++ [newBooking userB concert 1 1 sampleNow 9] ∧
    (newBooking userB concert 1 1 sampleNow 9).totalAmount = 50 :=
  ⟨(create_effect emptyDb userB { eventId := some 1, seats := some 1 } sampleNow 9
      (newBooking userB concert 1 1 sampleNow 9) (by decide)).1, by decide⟩

/-- Witness for C6: a request for three seats, and a request for an event dated yesterday,
are rejected and leave the database unchanged. -/
theorem create_rejected_unchanged_witness :
    (createBooking emptyDb userA { eventId := some 1, seats := some 3 } sampleNow 9).2 = emptyDb ∧
    (createBooking emptyDb userA { eventId := some 2, seats := some 1 } sampleNow 9) =
      (CreateResult.pastEvent, emptyDb) :=
  ⟨create_rejected_unchanged emptyDb userA { eventId := some 1, seats := some 3 } sampleNow 9
      (by decide), by decide⟩

/-! ## Cancel booking -/

theorem cancelBooking_eq (db : Db) (user : User) (id : ObjectId) (now : Date) :
    cancelBooking db user id now =
      match findBookingById db.bookings id with
      | none => (CancelResult.bookingNotFound, db)
      | some b =>
        if b.user ≠ user.id then (CancelResult.forbidden, db)
        else
          match findEventById db.events b.event with
          | none => (CancelResult.serverError, db)
          | some event =>
            if dayOf event.date ≤ dayOf now then (CancelResult.eventStarted, db)
            else if b.status = Status.cancelled then (CancelResult.alreadyCancelled, db)
            else
              (CancelResult.cancelled (markCancelled b now),
                { db with bookings := saveBooking db.bookings (markCancelled b now) }) := by
  unfold cancelBooking
  cases findBookingById db.bookings id with
  | none => rfl
  | some b =>
    simp only
    by_cases ho : b.user ≠ user.id
    · rw [if_pos ho, if_pos ho]
    · rw [if_neg ho, if_neg ho]
      cases findEventById db.events b.event with
      | none => rfl
      | some event =>
        simp only
        by_cases hd : dayOf event.date ≤ dayOf now
        · rw [if_pos ((isSameOrBeforeDay_iff _ _).2 hd), if_pos hd]
        · rw [if_neg (fun h => hd ((isSameOrBeforeDay_iff _ _).1 h)), if_neg hd]

/-- A cancel request either changes nothing and is not answered with `cancelled`, or it
passed every check and saved the marked document. -/
theorem cancelBooking_cases (db : Db) (user : User) (id : ObjectId) (now : Date) :
    ((cancelBooking db user id now).2 = db ∧
        (cancelBooking db user id now).1.failure ≠ none) ∨
    ∃ b event, findBookingById db.bookings id = some b ∧ b.user = user.id ∧
      findEventById db.events b.event = some event ∧ dayOf now < dayOf event.date ∧
      b.status = Status.confirmed ∧
      cancelBooking db user id now =
        (CancelResult.cancelled (markCancelled b now),
          { db with bookings := saveBooking db.bookings (markCancelled b now) }) := by
  rw [cancelBooking_eq]
  cases hb : findBookingById db.bookings id with
  | none => left; exact ⟨rfl, by simp [CancelResult.failure]⟩
  | some b =>
    simp only
    by_cases ho : b.user ≠ user.id
    · left; rw [if_pos ho]; exact ⟨rfl, by simp [CancelResult.failure]⟩
    · rw [if_neg ho]
      cases he : findEventById db.events b.event with
      | none => left; exact ⟨rfl, by simp [CancelResult.failure]⟩
      | some event =>
        simp only
        by_cases hd : dayOf event.date ≤ dayOf now
        · left; rw [if_pos hd]; exact ⟨rfl, by simp [CancelResult.failure]⟩
        · rw [if_neg hd]
          by_cases hs : b.status = Status.cancelled
          · left; rw [if_pos hs]; exact ⟨rfl, by simp [CancelResult.failure]⟩
          · right
            rw [if_neg hs]
            refine ⟨b, event, rfl, not_not.1 ho, he, Nat.lt_of_not_le hd, ?_, rfl⟩
            cases hq : b.status with
            | confirmed => rfl
            | cancelled => exact absurd hq hs

/-! ## Sums and counts over stored bookings -/

theorem confirmedSeats_nil (e : ObjectId) : confirmedSeats [] e = 0 := rfl

theorem confirmedSeats_cons (b : Booking) (bs : List Booking) (e : ObjectId) :
    confirmedSeats (b :: bs) e =
      (if b.event = e ∧ b.status = Status.confirmed then b.seats else 0) +
        confirmedSeats bs e := by
  unfold confirmedSeats
  by_cases h : b.event = e ∧ b.status = Status.confirmed
  · rw [List.filter_cons_of_pos (by simpa using h), if_pos h]
    simp
  · rw [List.filter_cons_of_neg (by simpa using h), if_neg h]
    simp

theorem confirmedSeats_append (bs cs : List Booking) (e : ObjectId) :
    confirmedSeats (bs ++ cs) e = confirmedSeats bs e + confirmedSeats cs e := by
  induction bs with
  | nil => simp [confirmedSeats_nil]
  | cons b bs ih => rw [List.cons_append, confirmedSeats_cons, confirmedSeats_cons, ih, add_assoc]

theorem confirmedSeats_nonneg (bs : List Booking) (e : ObjectId) (h : SeatsNonneg bs) :
    0 ≤ confirmedSeats bs e := by
  induction bs with
  | nil => rw [confirmedSeats_nil]
  | cons b bs ih =>
    rw [confirmedSeats_cons]
    have hb := h b (List.mem_cons_self _ _)
    have hrest := ih (fun x hx => h x (List.mem_cons_of_mem _ hx))
    split_ifs <;> omega

theorem confirmedCount_cons (b : Booking) (bs : List Booking) (u e : ObjectId) :
    confirmedCount (b :: bs) u e =
      confirmedCount bs u e +
        (if b.user = u ∧ b.event = e ∧ b.status = Status.confirmed then 1 else 0) := by
  unfold confirmedCount
  rw [List.countP_cons]
  simp

theorem confirmedCount_append (bs cs : List Booking) (u e : ObjectId) :
    confirmedCount (bs ++ cs) u e = confirmedCount bs u e + confirmedCount cs u e := by
  unfold confirmedCount
  rw [List.countP_append]

theorem findBookingById_cons (b : Booking) (bs : List Booking) (id : ObjectId) :
    findBookingById (b :: bs) id = if b.id = id then some b else findBookingById bs id := by
  unfold findBookingById
  rw [List.find?_cons]
  by_cases h : b.id = id <;> simp [h]

/-- Saving the cancelled copy of the stored booking `b` lowers the confirmed seats of an
event by `b.seats` when `b` was a confirmed booking of that event, and not at all otherwise. -/
theorem confirmedSeats_saveBooking (bs : List Booking) (b : Booking) (now : Date)
    (e : ObjectId) (h : findBookingById bs b.id = some b) :
    confirmedSeats (saveBooking bs (markCancelled b now)) e =
      confirmedSeats bs e -
        (if b.event = e ∧ b.status = Status.confirmed then b.seats else 0) := by
  induction bs with
  | nil => simp [findBookingById] at h
  | cons x xs ih =>
    rw [findBookingById_cons] at h
    unfold saveBooking
    by_cases hx : x.id = b.id
    · rw [if_pos hx] at h
      have hxb : x = b := by simpa using h
      subst hxb
      rw [if_pos (by rfl), confirmedSeats_cons, confirmedSeats_cons]
      simp [markCancelled]
    · rw [if_neg hx] at h
      rw [if_neg (by simpa [markCancelled] using hx), confirmedSeats_cons, confirmedSeats_cons,
        ih h]
      ring

theorem confirmedCount_saveBooking_le (bs : List Booking) (b : Booking) (now : Date)
    (u e : ObjectId) :
    confirmedCount (saveBooking bs (markCancelled b now)) u e ≤ confirmedCount bs u e := by
  induction bs with
  | nil => simp [saveBooking]
  | cons x xs ih =>
    unfold saveBooking
    by_cases hx : x.id = (markCancelled b now).id
    · rw [if_pos hx, confirmedCount_cons, confirmedCount_cons]
      simp [markCancelled]
    · rw [if_neg hx, confirmedCount_cons, confirmedCount_cons]
      omega

theorem mem_saveBooking {bs : List Booking} {doc x : Booking} (h : x ∈ saveBooking bs doc) :
    x = doc ∨ x ∈ bs := by
  induction bs with
  | nil => simp [saveBooking] at h
  | cons y ys ih =>
    unfold saveBooking at h
    by_cases hy : y.id = doc.id
    · rw [if_pos hy] at h
      rcases List.mem_cons.1 h with h | h
      · exact Or.inl h
      · exact Or.inr (List.mem_cons_of_mem _ h)
    · rw [if_neg hy] at h
      rcases List.mem_cons.1 h with h | h
      · exact Or.inr (h ▸ List.mem_cons_self _ _)
      · rcases ih h with h | h
        · exact Or.inl h
        · exact Or.inr (List.mem_cons_of_mem _ h)

/-! ## Invariants of request sequences -/

/-- A create request either changes nothing, or it passed every check and appended the
freshly built document. -/
theorem createBooking_cases (db : Db) (user : User) (body : CreateBody) (now : Date)
    (newId : ObjectId) :
    (createBooking db user body now newId).2 = db ∨
    ∃ e n event, body.eventId = some e ∧ body.seats = some n ∧ (1 ≤ n ∧ n ≤ 2) ∧
      findEventById db.events e = some event ∧ dayOf now ≤ dayOf event.date ∧
      confirmedCount db.bookings user.id e = 0 ∧
      n ≤ (event.capacity : Int) ∧
      createBooking db user body now newId =
        (CreateResult.created (newBooking user event e n now newId),
          { db with bookings := db.bookings ++ [newBooking user event e n now newId] }) := by
  by_cases hv : validationResult body = []
  · obtain ⟨e, n, he, hs, h1, h2⟩ := (validationResult_eq_nil_iff body).1 hv
    rw [createBooking_valid db user body now newId he hs ⟨h1, h2⟩]
    cases hf : findEventById db.events e with
    | none => left; rfl
    | some event =>
      simp only
      by_cases hd : dayOf event.date < dayOf now
      · left; rw [if_pos hd]
      · rw [if_neg hd]
        by_cases hc : confirmedCount db.bookings user.id e ≠ 0
        · left; rw [if_pos hc]
        · rw [if_neg hc]
          by_cases hcap : n > (event.capacity : Int)
          · left; rw [if_pos hcap]
          · right
            rw [if_neg hcap]
            exact ⟨e, n, event, he, hs, ⟨h1, h2⟩, hf, Nat.le_of_not_lt hd, not_not.1 hc,
              Int.not_lt.1 hcap, rfl⟩
  · left
    rw [createBooking_invalid db user body now newId hv]

theorem step_events (db : Db) (r : Request) : (step db r).events = db.events := by
  cases r with
  | create user body now newId =>
    show (createBooking db user body now newId).2.events = db.events
    rcases createBooking_cases db user body now newId with h | ⟨_, _, _, _, _, _, _, _, _, _, h⟩
    · rw [h]
    · rw [h]
  | cancel user id now =>
    show (cancelBooking db user id now).2.events = db.events
    rcases cancelBooking_cases db user id now with h | ⟨_, _, _, _, _, _, _, h⟩
    · rw [h.1]
    · rw [h]

theorem step_seatsNonneg (db : Db) (r : Request) (h : SeatsNonneg db.bookings) :
    SeatsNonneg (step db r).bookings := by
  cases r with
  | create user body now newId =>
    show SeatsNonneg (createBooking db user body now newId).2.bookings
    rcases createBooking_cases db user body now newId with
      hc | ⟨e, n, event, _, _, hn, _, _, _, _, hc⟩
    · rw [hc]; exact h
    · rw [hc]
      intro b hb
      rcases List.mem_append.1 hb with hb | hb
      · exact h b hb
      · have hbn : b = newBooking user event e n now newId := by simpa using hb
        rw [hbn]
        show 0 ≤ n
        omega
  | cancel user id now =>
    show SeatsNonneg (cancelBooking db user id now).2.bookings
    rcases cancelBooking_cases db user id now with hc | ⟨b, _, hb, _, _, _, _, hc⟩
    · rw [hc.1]; exact h
    · rw [hc]
      intro x hx
      rcases mem_saveBooking hx with hx | hx
      · rw [hx]
        exact h b (findBookingById_mem hb)
      · exact h x hx

theorem step_noDuplicate (db : Db) (r : Request) (h : NoDuplicate db.bookings) :
    NoDuplicate (step db r).bookings := by
  intro u e
  have hue := h u e
  cases r with
  | create user body now newId =>
    show confirmedCount (createBooking db user body now newId).2.bookings u e ≤ 1
    rcases createBooking_cases db user body now newId with
      hc | ⟨e', n, event, _, _, _, _, _, hdup, _, hc⟩
    · rw [hc]; exact hue
    · rw [hc]
      show confirmedCount (db.bookings ++ [newBooking user event e' n now newId]) u e ≤ 1
      rw [confirmedCount_append, confirmedCount_cons]
      by_cases hm : user.id = u ∧ e' = e
      · obtain ⟨hu, he⟩ := hm
        subst hu he
        rw [hdup]
        simp only [confirmedCount, List.countP_nil, zero_add]
        split_ifs <;> omega
      · have : ¬((newBooking user event e' n now newId).user = u ∧
            (newBooking user event e' n now newId).event = e ∧
            (newBooking user event e' n now newId).status = Status.confirmed) := by
          rintro ⟨h1, h2, _⟩
          exact hm ⟨h1, h2⟩
        rw [if_neg this]
        simp only [confirmedCount, List.countP_nil, add_zero]
        exact hue
  | cancel user id now =>
    show confirmedCount (cancelBooking db user id now).2.bookings u e ≤ 1
    rcases cancelBooking_cases db user id now with hc | ⟨b, _, _, _, _, _, _, hc⟩
    · rw [hc.1]; exact hue
    · rw [hc]
      exact le_trans (confirmedCount_saveBooking_le db.bookings b now u e) hue

theorem run_events (db : Db) (rs : List Request) : (run db rs).events = db.events := by
  induction rs generalizing db with
  | nil => rfl
  | cons r rs ih =>
    show (run (step db r) rs).events = db.events
    rw [ih, step_events]

theorem run_invariants (db : Db) (rs : List Request)
    (h : SeatsNonneg db.bookings ∧ NoDuplicate db.bookings) :
    SeatsNonneg (run db rs).bookings ∧ NoDuplicate (run db rs).bookings := by
  induction rs generalizing db with
  | nil => exact h
  | cons r rs ih =>
    show SeatsNonneg (run (step db r) rs).bookings ∧ NoDuplicate (run (step db r) rs).bookings
    exact ih (step db r) ⟨step_seatsNonneg db r h.1, step_noDuplicate db r h.2⟩

theorem empty_invariants (events : List Event) :
    SeatsNonneg ({ events := events, bookings := [] } : Db).bookings ∧
      NoDuplicate ({ events := events, bookings := [] } : Db).bookings := by
  refine ⟨?_, ?_⟩
  · intro b hb
    simp at hb
  · intro u e
    simp [confirmedCount]

theorem findBookingById_split {bs : List Booking} {id : ObjectId} {b : Booking}
    (h : findBookingById bs id = some b) :
    ∃ pre post, bs = pre ++ b :: post ∧ ∀ x ∈ pre, x.id ≠ id := by
  induction bs with
  | nil => simp [findBookingById] at h
  | cons y ys ih =>
    rw [findBookingById_cons] at h
    by_cases hy : y.id = id
    · rw [if_pos hy] at h
      have hyb : y = b := by simpa using h
      subst hyb
      exact ⟨[], ys, rfl, by simp⟩
    · rw [if_neg hy] at h
      obtain ⟨pre, post, hsplit, hpre⟩ := ih h
      refine ⟨y :: pre, post, by rw [hsplit]; rfl, ?_⟩
      intro x hx
      rcases List.mem_cons.1 hx with hx | hx
      · rw [hx]; exact hy
      · exact hpre x hx

theorem saveBooking_split (pre post : List Booking) (b doc : Booking)
    (hpre : ∀ x ∈ pre, x.id ≠ doc.id) (hb : b.id = doc.id) :
    saveBooking (pre ++ b :: post) doc = pre ++ doc :: post := by
  induction pre with
  | nil =>
    show saveBooking (b :: post) doc = doc :: post
    unfold saveBooking
    rw [if_pos hb]
  | cons y ys ih =>
    show saveBooking (y :: (ys ++ b :: post)) doc = y :: (ys ++ doc :: post)
    unfold saveBooking
    rw [if_neg (hpre y (List.mem_cons_self _ _)),
      ih (fun x hx => hpre x (List.mem_cons_of_mem _ hx))]

/-! ## The claims on request sequences, the aggregator and cancellation -/

/-- C1, evaluated where the code departs from it: on the sample concert of capacity 2,
`userA` and then `userB` ask for two seats each, one request at a time. Both requests are
answered 201 and four seats are confirmed. The capacity check compares with the full
capacity, because its aggregate counts no booking. -/
theorem overbooking_reached :
    findEventById [concert, lecture] concert.id = some concert ∧ concert.capacity = 2 ∧
    (createBooking emptyDb userA { eventId := some 1, seats := some 2 } sampleNow 7).1.code = 201 ∧
    (createBooking
      (createBooking emptyDb userA { eventId := some 1, seats := some 2 } sampleNow 7).2
      userB { eventId := some 1, seats := some 2 } sampleNow 8).1.code = 201 ∧
    confirmedSeats
      (run { events := [concert, lecture], bookings := [] } overbookRequests).bookings
      concert.id = 4 ∧
    ¬ WithinCapacity (run { events := [concert, lecture], bookings := [] } overbookRequests) := by
  refine ⟨by decide, by decide, by decide, by decide, by decide, ?_⟩
  intro h
  exact absurd (h concert (by decide)) (by decide)

/-- C2: no duplicate active booking. In every state reached from an empty booking set by
serving any sequence of create and cancel requests one at a time, every (user, event)
pair has at most one booking with status confirmed. -/
theorem no_duplicate_booking (events : List Event) (requests : List Request)
    (u e : ObjectId) :
    confirmedCount (run { events := events, bookings := [] } requests).bookings u e ≤ 1 :=
  (run_invariants _ requests (empty_invariants events)).2 u e

/-- C8, evaluated where the code departs from it: `userA` holds two confirmed seats of the
sample concert, and the capacity aggregator answers 0 for that event, at the availability
route and in the capacity check of `POST /` alike. -/
theorem availability_counts_nothing :
    confirmedSeats fullDb.bookings 1 = 2 ∧ getAvailability fullDb 1 = 0 ∧
    aggregateTotalSeats fullDb.bookings 1 = [] ∧
    bookedSeatsOf (aggregateTotalSeats fullDb.bookings 1) = 0 := by
  decide

/-- The four rules of the specification decide the response of `PUT /:id/cancel` whenever
the event of the targeted booking still resolves. -/
theorem cancel_failure_eq (db : Db) (user : User) (id : ObjectId) (now : Date)
    (h : ∀ b, findBookingById db.bookings id = some b → b.user = user.id →
      findEventById db.events b.event ≠ none) :
    (cancelBooking db user id now).1.failure = firstCancelFailure db user id now := by
  rw [cancelBooking_eq]
  unfold firstCancelFailure
  cases hb : findBookingById db.bookings id with
  | none => rfl
  | some b =>
    simp only
    by_cases ho : b.user ≠ user.id
    · rw [if_pos ho, if_pos ho]; rfl
    · rw [if_neg ho, if_neg ho]
      unfold eventAfterToday
      cases he : findEventById db.events b.event with
      | none => exact absurd he (h b hb (not_not.1 ho))
      | some event =>
        simp only
        by_cases hd : dayOf event.date ≤ dayOf now
        · have hd2 : (!decide (dayOf now < dayOf event.date)) = true := by simpa using hd
          rw [if_pos hd, if_pos hd2]; rfl
        · have hd2 : ¬(!decide (dayOf now < dayOf event.date)) = true := by simpa using hd
          rw [if_neg hd, if_neg hd2]
          by_cases hs : b.status = Status.cancelled
          · rw [if_pos hs, if_pos hs]; rfl
          · rw [if_neg hs, if_neg hs]; rfl

/-- C9, evaluated where the code departs from it: the owner cancels a confirmed booking
whose event has been deleted. The four rules reject it as event-started (the event's date
is not strictly after today); the handler answers with the generic server error. -/
theorem cancel_orphan_server_error :
    cancelBooking orphanDb userA 7 sampleNow = (CancelResult.serverError, orphanDb) ∧
    (cancelBooking orphanDb userA 7 sampleNow).1.code = 500 ∧
    firstCancelFailure orphanDb userA 7 sampleNow = some CancelFailure.eventStarted ∧
    (cancelBooking orphanDb userA 7 sampleNow).1.failure ≠
      firstCancelFailure orphanDb userA 7 sampleNow := by
  decide

/-- C10: a cancel request either is rejected and leaves the database as it was, or succeeds
and replaces the targeted booking, in place, by a copy that differs only in `status`
(now cancelled) and `cancelledAt` (now the current time): its identifier, user, event,
seats, totalAmount and bookingDate are unchanged, and so are every other booking and the
events. -/
theorem cancel_effect (db : Db) (user : User) (id : ObjectId) (now : Date) :
    ((cancelBooking db user id now).1.failure ≠ none ∧
      (cancelBooking db user id now).2 = db) ∨
    ∃ pre b post saved, db.bookings = pre ++ b :: post ∧ (∀ x ∈ pre, x.id ≠ id) ∧ b.id = id ∧
      cancelBooking db user id now =
        (CancelResult.cancelled saved, { db with bookings := pre ++ saved :: post }) ∧
      saved.status = Status.cancelled ∧ saved.cancelledAt = some now ∧
      saved.id = b.id ∧ saved.user = b.user ∧ saved.event = b.event ∧
      saved.seats = b.seats ∧ saved.totalAmount = b.totalAmount ∧
      saved.bookingDate = b.bookingDate := by
  rcases cancelBooking_cases db user id now with h | ⟨b, _, hb, _, _, _, _, hc⟩
  · exact Or.inl ⟨h.2, h.1⟩
  · right
    obtain ⟨pre, post, hsplit, hpre⟩ := findBookingById_split hb
    have hbid := findBookingById_id hb
    refine ⟨pre, b, post, markCancelled b now, hsplit, hpre, hbid, ?_, rfl, rfl, rfl, rfl,
      rfl, rfl, rfl, rfl⟩
    rw [hc, hsplit, saveBooking_split pre post b (markCancelled b now)
      (fun x hx => by rw [show (markCancelled b now).id = id from hbid]; exact hpre x hx) rfl]

/-! ## Freed seats -/

/-- Shape of a successful cancel: the targeted booking was found, owned by the requester
and confirmed, its event resolved with a date after today, and its cancelled copy
was saved. -/
theorem cancelBooking_cancelled (db : Db) (user : User) (id : ObjectId) (now : Date)
    (saved : Booking) (h : (cancelBooking db user id now).1 = CancelResult.cancelled saved) :
    ∃ b event, findBookingById db.bookings id = some b ∧ b.user = user.id ∧
      findEventById db.events b.event = some event ∧ dayOf now < dayOf event.date ∧
      b.status = Status.confirmed ∧ saved = markCancelled b now ∧
      (cancelBooking db user id now).2 =
        { db with bookings := saveBooking db.bookings (markCancelled b now) } := by
  rcases cancelBooking_cases db user id now with hc | ⟨b, event, hb, ho, he, hd, hs, hc⟩
  · rw [h] at hc
    exact absurd rfl hc.2
  · rw [hc] at h
    have hsaved : markCancelled b now = saved := by simpa using h
    exact ⟨b, event, hb, ho, he, hd, hs, hsaved.symm, by rw [hc]⟩

/-- The capacity aggregator answers 0 whatever is stored. -/
theorem getAvailability_eq_zero (db : Db) (e : ObjectId) : getAvailability db e = 0 :=
  bookedSeatsOf_aggregate db.bookings e

/-- C11, evaluated where the code departs from it: `userA` cancels the two confirmed seats
held on the sample concert. The stored confirmed seats of the event go from 2 to 0, but
the capacity aggregator's result is 0 before the cancel and 0 after it, not 2 less. -/
theorem cancel_frees_nothing :
    (cancelBooking fullDb userA 7 sampleNow).1 =
      CancelResult.cancelled (markCancelled heldBooking sampleNow) ∧
    heldBooking.event = 1 ∧ heldBooking.seats = 2 ∧
    confirmedSeats fullDb.bookings 1 = 2 ∧
    confirmedSeats (cancelBooking fullDb userA 7 sampleNow).2.bookings 1 = 0 ∧
    getAvailability fullDb 1 = 0 ∧
    getAvailability (cancelBooking fullDb userA 7 sampleNow).2 1 = 0 ∧
    getAvailability (cancelBooking fullDb userA 7 sampleNow).2 1 ≠
      getAvailability fullDb 1 - heldBooking.seats := by
  decide

/-! ## Cancelling twice, and cancelling for someone else -/

/-- C12 as stated fails: the owner's cancel request for a cancelled booking on the day of
the event is rejected as event-started, and a stranger's cancel request for it is rejected
as forbidden; neither is the already-cancelled rejection. -/
theorem cancel_cancelled_counterexample :
    (findBookingById cancelledDb.bookings 7).map (fun b => b.status) = some Status.cancelled ∧
    (cancelBooking cancelledDb userA 7 (noonOf 20)).1 = CancelResult.eventStarted ∧
    (cancelBooking cancelledDb userA 7 (noonOf 20)).1 ≠ CancelResult.alreadyCancelled ∧
    (cancelBooking cancelledDb userB 7 sampleNow).1 = CancelResult.forbidden ∧
    (cancelBooking cancelledDb userB 7 sampleNow).1 ≠ CancelResult.alreadyCancelled := by
  decide

/-- C12, amended: a cancel request for a booking whose status is cancelled is never a
success and changes nothing; it is rejected with already-cancelled whenever the requester
is the owner and the booking's event resolves to an event dated strictly after today. -/
theorem cancel_cancelled_rejected (db : Db) (user : User) (id : ObjectId) (now : Date)
    (b : Booking) (hb : findBookingById db.bookings id = some b)
    (hs : b.status = Status.cancelled) :
    ((cancelBooking db user id now).1.failure ≠ none ∧
      (cancelBooking db user id now).2 = db) ∧
    (b.user = user.id → ∀ event, findEventById db.events b.event = some event →
      dayOf now < dayOf event.date →
      (cancelBooking db user id now).1 = CancelResult.alreadyCancelled) := by
  constructor
  · rcases cancelBooking_cases db user id now with h | ⟨b', _, hb', _, _, _, hs', _⟩
    · exact ⟨h.2, h.1⟩
    · rw [hb] at hb'
      have hbb : b = b' := Option.some.inj hb'
      rw [← hbb, hs] at hs'
      exact absurd hs' (by decide)
  · intro ho event he hd
    rw [cancelBooking_eq, hb]
    simp only
    rw [if_neg (not_not.2 ho), he]
    simp only
    rw [if_neg (Nat.not_le.2 hd), if_pos hs]

/-- Witness for C12: the owner cancels the cancelled sample booking ten days before the
event. -/
theorem cancel_cancelled_rejected_witness :
    cancelBooking cancelledDb userA 7 sampleNow = (CancelResult.alreadyCancelled, cancelledDb) ∧
    (((cancelBooking cancelledDb userA 7 sampleNow).1.failure ≠ none ∧
        (cancelBooking cancelledDb userA 7 sampleNow).2 = cancelledDb) ∧
      ((markCancelled heldBooking (noonOf 9)).user = userA.id → ∀ event,
        findEventById cancelledDb.events (markCancelled heldBooking (noonOf 9)).event =
          some event →
        dayOf sampleNow < dayOf event.date →
        (cancelBooking cancelledDb userA 7 sampleNow).1 = CancelResult.alreadyCancelled)) :=
  ⟨by decide,
    cancel_cancelled_rejected cancelledDb userA 7 sampleNow
      (markCancelled heldBooking (noonOf 9)) (by decide) (by decide)⟩

/-- C17: cancellation is gated by ownership, not role. For every stored booking and every
requester whose identity differs from the booking's user, whatever the requester's role,
the cancel request is rejected as forbidden and the database is unchanged. -/
theorem cancel_requires_owner (db : Db) (user : User) (id : ObjectId) (now : Date)
    (b : Booking) (hb : findBookingById db.bookings id = some b) (hne : user.id ≠ b.user) :
    cancelBooking db user id now = (CancelResult.forbidden, db) ∧
    (cancelBooking db user id now).1.code = 403 := by
  have h : cancelBooking db user id now = (CancelResult.forbidden, db) := by
    rw [cancelBooking_eq, hb]
    simp only
    rw [if_pos (fun h => hne h.symm)]
  rw [h]
  exact ⟨rfl, rfl⟩

/-- Witness for C17: an administrator asks to cancel the booking of `userA`. -/
theorem cancel_requires_owner_witness :
    adminUser.role = Role.admin ∧ adminUser.id ≠ heldBooking.user ∧
    cancelBooking fullDb adminUser 7 sampleNow = (CancelResult.forbidden, fullDb) :=
  ⟨rfl, by decide,
    (cancel_requires_owner fullDb adminUser 7 sampleNow heldBooking (by decide) (by decide)).1⟩

/-! ## The life of a stored booking -/

theorem Evolves.refl (b : Booking) : Evolves b b := Or.inl rfl

theorem Evolves.trans {a b c : Booking} (hab : Evolves a b) (hbc : Evolves b c) :
    Evolves a c := by
  rcases hab with hab | ⟨ha, t, hab⟩
  · rw [hab] at hbc; exact hbc
  · rcases hbc with hbc | ⟨hb, _, _⟩
    · rw [hbc]; exact Or.inr ⟨ha, t, hab⟩
    · rw [hab] at hb
      exact absurd hb (by simp [markCancelled])

/-- What never changes in the life of a stored booking, and the direction of what does. -/
theorem Evolves.frame {b later : Booking} (h : Evolves b later) :
    later.id = b.id ∧ later.user = b.user ∧ later.event = b.event ∧ later.seats = b.seats ∧
      later.totalAmount = b.totalAmount ∧ later.bookingDate = b.bookingDate ∧
      (later = b ∨ (b.status = Status.confirmed ∧ later.status = Status.cancelled)) ∧
      (b.status = Status.cancelled → later = b) := by
  rcases h with h | ⟨hs, t, h⟩
  · rw [h]
    exact ⟨rfl, rfl, rfl, rfl, rfl, rfl, Or.inl rfl, fun _ => rfl⟩
  · rw [h]
    refine ⟨rfl, rfl, rfl, rfl, rfl, rfl, Or.inr ⟨hs, rfl⟩, ?_⟩
    intro hc
    rw [hs] at hc
    exact absurd hc (by decide)

theorem saveBooking_getElem? (bs : List Booking) (b0 doc : Booking)
    (h : findBookingById bs doc.id = some b0) (i : Nat) (y : Booking) (hy : bs[i]? = some y) :
    ∃ x, (saveBooking bs doc)[i]? = some x ∧ (x = y ∨ (y = b0 ∧ x = doc)) := by
  induction bs generalizing i with
  | nil => simp at hy
  | cons z zs ih =>
    rw [findBookingById_cons] at h
    unfold saveBooking
    by_cases hz : z.id = doc.id
    · rw [if_pos hz] at h
      rw [if_pos hz]
      have hzb : z = b0 := Option.some.inj h
      cases i with
      | zero =>
        have hyz : z = y := by simpa using hy
        exact ⟨doc, by simp, Or.inr ⟨by rw [← hyz, hzb], rfl⟩⟩
      | succ j =>
        have hj : zs[j]? = some y := by simpa using hy
        exact ⟨y, by simpa using hj, Or.inl rfl⟩
    · rw [if_neg hz] at h
      rw [if_neg hz]
      cases i with
      | zero =>
        have hyz : z = y := by simpa using hy
        exact ⟨y, by simp [hyz], Or.inl rfl⟩
      | succ j =>
        have hj : zs[j]? = some y := by simpa using hy
        obtain ⟨x, hx, hxy⟩ := ih h j hj
        exact ⟨x, by simpa using hx, hxy⟩

theorem getElem?_append_singleton (bs : List Booking) (x y : Booking) (i : Nat)
    (hy : bs[i]? = some y) : (bs ++ [x])[i]? = some y := by
  have hi : i < bs.length := by
    by_contra hge
    rw [List.getElem?_eq_none (Nat.le_of_not_lt hge)] at hy
    exact absurd hy (by simp)
  rw [List.getElem?_append_left hi]
  exact hy

theorem step_evolves (db : Db) (r : Request) (i : Nat) (b : Booking)
    (h : db.bookings[i]? = some b) :
    ∃ later, (step db r).bookings[i]? = some later ∧ Evolves b later := by
  cases r with
  | create user body now newId =>
    show ∃ later, (createBooking db user body now newId).2.bookings[i]? = some later ∧ _
    rcases createBooking_cases db user body now newId with
      hc | ⟨e, n, event, _, _, _, _, _, _, _, hc⟩
    · rw [hc]; exact ⟨b, h, Evolves.refl b⟩
    · rw [hc]
      exact ⟨b, getElem?_append_singleton db.bookings _ b i h, Evolves.refl b⟩
  | cancel user id now =>
    show ∃ later, (cancelBooking db user id now).2.bookings[i]? = some later ∧ _
    rcases cancelBooking_cases db user id now with hc | ⟨b0, _, hb0, _, _, _, hs, hc⟩
    · rw [hc.1]; exact ⟨b, h, Evolves.refl b⟩
    · rw [hc]
      have hfind : findBookingById db.bookings (markCancelled b0 now).id = some b0 := by
        rw [show (markCancelled b0 now).id = b0.id from rfl, findBookingById_id hb0]
        exact hb0
      obtain ⟨x, hx, hxy⟩ := saveBooking_getElem? db.bookings b0 (markCancelled b0 now) hfind i b h
      refine ⟨x, hx, ?_⟩
      rcases hxy with hxy | ⟨hbb, hxd⟩
      · exact Or.inl hxy
      · rw [hbb, hxd]
        exact Or.inr ⟨hs, now, rfl⟩

theorem run_evolves (db : Db) (rs : List Request) (i : Nat) (b : Booking)
    (h : db.bookings[i]? = some b) :
    ∃ later, (run db rs).bookings[i]? = some later ∧ Evolves b later := by
  induction rs generalizing db b with
  | nil => exact ⟨b, h, Evolves.refl b⟩
  | cons r rs ih =>
    obtain ⟨mid, hmid, hbm⟩ := step_evolves db r i b h
    obtain ⟨later, hlater, hml⟩ := ih (step db r) mid hmid
    exact ⟨later, hlater, hbm.trans hml⟩

theorem stepOp_bookings (db : Db) (op : Op) :
    (∃ r, op = Op.booking r) ∨ (stepOp db op).bookings = db.bookings := by
  cases op with
  | booking r => exact Or.inl ⟨r, rfl⟩
  | createEvent user body newId =>
    right
    show (createEvent db user body newId).2.bookings = db.bookings
    unfold createEvent
    split_ifs <;> rfl
  | updateEvent user id body =>
    right
    show (updateEvent db user id body).2.bookings = db.bookings
    unfold updateEvent
    split_ifs
    · rfl
    · rfl
    · cases findEventById db.events id <;> rfl
  | deleteEvent user id =>
    right
    show (deleteEvent db user id).2.bookings = db.bookings
    unfold deleteEvent
    split_ifs
    · rfl
    · cases findEventById db.events id <;> rfl

theorem runOps_evolves (db : Db) (ops : List Op) (i : Nat) (b : Booking)
    (h : db.bookings[i]? = some b) :
    ∃ later, (runOps db ops).bookings[i]? = some later ∧ Evolves b later := by
  induction ops generalizing db b with
  | nil => exact ⟨b, h, Evolves.refl b⟩
  | cons op ops ih =>
    have hstep : ∃ mid, (stepOp db op).bookings[i]? = some mid ∧ Evolves b mid := by
      rcases stepOp_bookings db op with ⟨r, hr⟩ | hsame
      · rw [hr]; exact step_evolves db r i b h
      · rw [hsame]; exact ⟨b, h, Evolves.refl b⟩
    obtain ⟨mid, hmid, hbm⟩ := hstep
    obtain ⟨later, hlater, hml⟩ := ih (stepOp db op) mid hmid
    exact ⟨later, hlater, hbm.trans hml⟩

theorem step_cancelledAt (db : Db) (r : Request) (h : CancelledAtIffCancelled db.bookings) :
    CancelledAtIffCancelled (step db r).bookings := by
  cases r with
  | create user body now newId =>
    show CancelledAtIffCancelled (createBooking db user body now newId).2.bookings
    rcases createBooking_cases db user body now newId with
      hc | ⟨e, n, event, _, _, _, _, _, _, _, hc⟩
    · rw [hc]; exact h
    · rw [hc]
      intro b hb
      rcases List.mem_append.1 hb with hb | hb
      · exact h b hb
      · have hbn : b = newBooking user event e n now newId := by simpa using hb
        rw [hbn]
        simp [newBooking]
  | cancel user id now =>
    show CancelledAtIffCancelled (cancelBooking db user id now).2.bookings
    rcases cancelBooking_cases db user id now with hc | ⟨b, _, _, _, _, _, _, hc⟩
    · rw [hc.1]; exact h
    · rw [hc]
      intro x hx
      rcases mem_saveBooking hx with hx | hx
      · rw [hx]
        simp [markCancelled]
      · exact h x hx

theorem run_cancelledAt (db : Db) (rs : List Request) (h : CancelledAtIffCancelled db.bookings) :
    CancelledAtIffCancelled (run db rs).bookings := by
  induction rs generalizing db with
  | nil => exact h
  | cons r rs ih => exact ih (step db r) (step_cancelledAt db r h)

/-- C14: in every state reached from an empty booking set by create and cancel requests,
for every stored booking, `cancelledAt` is set if and only if its status is cancelled. -/
theorem cancelledAt_iff_cancelled (events : List Event) (requests : List Request) :
    ∀ b ∈ (run { events := events, bookings := [] } requests).bookings,
      (b.cancelledAt ≠ none ↔ b.status = Status.cancelled) := by
  intro b hb
  have h := run_cancelledAt { events := events, bookings := [] } requests
    (fun x hx => by simp at hx) b hb
  rw [← h, Option.ne_none_iff_isSome]

/-- Witness for C14: the booking cancelled in the sample sequence is stored with status
cancelled and `cancelledAt` set. -/
theorem cancelledAt_iff_cancelled_witness :
    markCancelled (newBooking userA concert 1 2 sampleNow 7) (noonOf 11) ∈
      (run { events := [concert, lecture], bookings := [] } sampleRequests).bookings ∧
    ((markCancelled (newBooking userA concert 1 2 sampleNow 7) (noonOf 11)).cancelledAt ≠ none ↔
      (markCancelled (newBooking userA concert 1 2 sampleNow 7) (noonOf 11)).status =
        Status.cancelled) :=
  ⟨by decide,
    cancelledAt_iff_cancelled [concert, lecture] sampleRequests
      (markCancelled (newBooking userA concert 1 2 sampleNow 7) (noonOf 11)) (by decide)⟩

/-- C15: booking status is a one-way two-state machine. A booking is created confirmed
with `cancelledAt` unset; over any sequence of create and cancel requests the booking
stored at a position stays at that position and either is unchanged or has gone from
confirmed to cancelled; a booking that is cancelled stays exactly as it is, so its status
never becomes confirmed again and its `cancelledAt` never changes. -/
theorem status_one_way (db : Db) (requests : List Request) :
    (∀ user body now newId b,
      (createBooking db user body now newId).1 = CreateResult.created b →
        b.status = Status.confirmed ∧ b.cancelledAt = none) ∧
    (∀ (i : Nat) (b : Booking), db.bookings[i]? = some b →
      ∃ later, (run db requests).bookings[i]? = some later ∧
        (later = b ∨ (b.status = Status.confirmed ∧ later.status = Status.cancelled)) ∧
        (b.status = Status.cancelled →
          later.status = Status.cancelled ∧ later.cancelledAt = b.cancelledAt)) := by
  constructor
  · intro user body now newId b h
    obtain ⟨e, n, event, _, _, _, _, hb, _⟩ := createBooking_created db user body now newId b h
    rw [hb]
    exact ⟨rfl, rfl⟩
  · intro i b h
    obtain ⟨later, hlater, hev⟩ := run_evolves db requests i b h
    obtain ⟨_, _, _, _, _, _, hdir, hfix⟩ := hev.frame
    refine ⟨later, hlater, hdir, ?_⟩
    intro hc
    rw [hfix hc]
    exact ⟨hc, rfl⟩

/-- C16: `totalAmount` is a snapshot. A booking created while the event's price was `p`
has `totalAmount = seats × p`, and after any later sequence of requests to the mutating
routes (event creations, updates and deletions, create and cancel requests) the booking,
still stored at its position, has the same seats and the same `totalAmount`. -/
theorem total_amount_snapshot (db : Db) (user : User) (body : CreateBody) (now : Date)
    (newId : ObjectId) (b : Booking) (ops : List Op)
    (h : (createBooking db user body now newId).1 = CreateResult.created b) :
    ∃ event later, findEventById db.events b.event = some event ∧
      (runOps (createBooking db user body now newId).2 ops).bookings[db.bookings.length]? =
        some later ∧
      later.id = b.id ∧ later.user = b.user ∧ later.event = b.event ∧
      later.seats = b.seats ∧ later.totalAmount = b.seats * event.price := by
  obtain ⟨e, n, event, _, _, _, hf, hb, hdb⟩ := createBooking_created db user body now newId b h
  have hat : (createBooking db user body now newId).2.bookings[db.bookings.length]? = some b := by
    rw [hdb]
    simp
  obtain ⟨later, hlater, hev⟩ := runOps_evolves _ ops _ b hat
  obtain ⟨h1, h2, h3, h4, h5, _, _, _⟩ := hev.frame
  have hev' : findEventById db.events b.event = some event := by rw [hb]; exact hf
  refine ⟨event, later, hev', hlater, h1, h2, h3, h4, ?_⟩
  rw [h5, hb]
  exact Int.mul_comm _ _

/-- Witness for C16: `userA` books both seats at price 50; the price is then raised to 80
and the booking cancelled; its `totalAmount` is still 100. -/
theorem total_amount_snapshot_witness :
    (findEventById
      (runOps scenario1.2
        [Op.updateEvent adminUser 1 priceUpdate,
          Op.booking (Request.cancel userA 7 sampleNow)]).events 1).map (fun e => e.price) =
      some 80 ∧
    ((runOps scenario1.2
        [Op.updateEvent adminUser 1 priceUpdate,
          Op.booking (Request.cancel userA 7 sampleNow)]).bookings[0]?).map
      (fun b => (b.status, b.totalAmount)) = some (Status.cancelled, 100) ∧
    ∃ event later, findEventById scenarioDb.events (newBooking userA concert 1 2 sampleNow 7).event =
        some event ∧
      (runOps (createBooking scenarioDb userA { eventId := some 1, seats := some 2 } sampleNow 7).2
        [Op.updateEvent adminUser 1 priceUpdate,
          Op.booking (Request.cancel userA 7 sampleNow)]).bookings[scenarioDb.bookings.length]? =
        some later ∧
      later.id = (newBooking userA concert 1 2 sampleNow 7).id ∧
      later.user = (newBooking userA concert 1 2 sampleNow 7).user ∧
      later.event = (newBooking userA concert 1 2 sampleNow 7).event ∧
      later.seats = (newBooking userA concert 1 2 sampleNow 7).seats ∧
      later.totalAmount = (newBooking userA concert 1 2 sampleNow 7).seats * event.price :=
  ⟨by decide, by decide,
    total_amount_snapshot scenarioDb userA { eventId := some 1, seats := some 2 } sampleNow 7
      (newBooking userA concert 1 2 sampleNow 7) _ (by decide)⟩

/-! ## Cancel, then book again -/

/-- Saving the cancelled copy of the stored booking `b` lowers the number of confirmed
bookings of a (user, event) pair by one when `b` was a confirmed booking of that pair, and
not at all otherwise. -/
theorem confirmedCount_saveBooking (bs : List Booking) (b : Booking) (now : Date)
    (u e : ObjectId) (h : findBookingById bs b.id = some b) :
    confirmedCount (saveBooking bs (markCancelled b now)) u e +
        (if b.user = u ∧ b.event = e ∧ b.status = Status.confirmed then 1 else 0) =
      confirmedCount bs u e := by
  induction bs with
  | nil => simp [findBookingById] at h
  | cons x xs ih =>
    rw [findBookingById_cons] at h
    unfold saveBooking
    by_cases hx : x.id = b.id
    · rw [if_pos hx] at h
      have hxb : x = b := by simpa using h
      subst hxb
      rw [if_pos (by rfl), confirmedCount_cons, confirmedCount_cons]
      simp [markCancelled]
    · rw [if_neg hx] at h
      rw [if_neg (by simpa [markCancelled] using hx), confirmedCount_cons, confirmedCount_cons,
        ← ih h]
      omega

/-- C13 as stated fails: `userA` books the single seat of the workshop, cancels it
successfully and at once asks for two seats; the request is rejected as
capacity-exceeded. -/
theorem rebook_counterexample :
    (createBooking soloDb userA { eventId := some 4, seats := some 1 } sampleNow 7).1.code = 201 ∧
    (cancelBooking
      (createBooking soloDb userA { eventId := some 4, seats := some 1 } sampleNow 7).2
      userA 7 sampleNow).1.code = 200 ∧
    run { events := [workshop], bookings := [] } soloRequests =
      (cancelBooking
        (createBooking soloDb userA { eventId := some 4, seats := some 1 } sampleNow 7).2
        userA 7 sampleNow).2 ∧
    (createBooking (run { events := [workshop], bookings := [] } soloRequests) userA
      { eventId := some 4, seats := some 2 } sampleNow 9).1 = CreateResult.capacityExceeded 1 := by
  decide

/-- C13, amended: in a state reached from an empty booking set by create and cancel
requests, after a user's confirmed booking for an event is successfully cancelled, a
create request by that user for that event on the same day succeeds whenever its seat
count is 1 or 2 and does not exceed the event's capacity minus the seats of the event's
confirmed bookings. -/
theorem cancel_then_rebook (events : List Event) (requests : List Request) (user : User)
    (id : ObjectId) (now : Date) (saved : Booking)
    (h : (cancelBooking (run { events := events, bookings := [] } requests) user id now).1 =
      CancelResult.cancelled saved) :
    ∃ event, findEventById events saved.event = some event ∧ saved.user = user.id ∧
      ∀ (n : Int) (now' : Date) (newId : ObjectId), 1 ≤ n → n ≤ 2 → dayOf now' = dayOf now →
        n ≤ (event.capacity : Int) -
          confirmedSeats
            (cancelBooking (run { events := events, bookings := [] } requests) user id now).2.bookings
            saved.event →
        (createBooking
          (cancelBooking (run { events := events, bookings := [] } requests) user id now).2
          user { eventId := some saved.event, seats := some n } now' newId).1.code = 201 := by
  obtain ⟨hseats, hdup⟩ := run_invariants _ requests (empty_invariants events)
  have hevents : (run { events := events, bookings := [] } requests).events = events :=
    run_events { events := events, bookings := [] } requests
  have hafterNonneg := step_seatsNonneg _ (Request.cancel user id now) hseats
  generalize run { events := events, bookings := [] } requests = db at *
  obtain ⟨b, event, hb, ho, he, hd, hs, hsaved, hdb⟩ :=
    cancelBooking_cancelled db user id now saved h
  have hbid := findBookingById_id hb
  have hfind : findBookingById db.bookings b.id = some b := by rw [hbid]; exact hb
  have hev : saved.event = b.event := by rw [hsaved]; rfl
  have hcount : confirmedCount (cancelBooking db user id now).2.bookings user.id b.event = 0 := by
    rw [hdb]
    show confirmedCount (saveBooking db.bookings (markCancelled b now)) user.id b.event = 0
    have h1 := confirmedCount_saveBooking db.bookings b now user.id b.event hfind
    rw [if_pos ⟨ho, rfl, hs⟩] at h1
    have h2 := hdup user.id b.event
    omega
  have hevents' : (cancelBooking db user id now).2.events = db.events := by rw [hdb]
  have hnonneg : 0 ≤ confirmedSeats (cancelBooking db user id now).2.bookings b.event :=
    confirmedSeats_nonneg _ _ hafterNonneg
  refine ⟨event, ?_, ?_, ?_⟩
  · rw [hev, ← hevents]; exact he
  · rw [hsaved]; exact ho
  · intro n now' newId h1 h2 hday hn
    rw [hev] at hn
    rw [createBooking_valid (cancelBooking db user id now).2 user _ now' newId
      (e := saved.event) (n := n) rfl rfl ⟨h1, h2⟩, hevents', hev, he]
    simp only
    rw [if_neg (by rw [hday]; omega), if_neg (by rw [hcount]; simp), if_neg (by omega)]
    rfl

/-- Witness for C13: after `userA` cancels the seat held on the workshop, a new request of
`userA` for one seat succeeds. -/
theorem cancel_then_rebook_witness :
    (cancelBooking
      (run { events := [workshop], bookings := [] }
        [Request.create userA { eventId := some 4, seats := some 1 } sampleNow 7])
      userA 7 sampleNow).1 =
      CancelResult.cancelled (markCancelled (newBooking userA workshop 4 1 sampleNow 7) sampleNow) ∧
    (createBooking
      (cancelBooking
        (run { events := [workshop], bookings := [] }
          [Request.create userA { eventId := some 4, seats := some 1 } sampleNow 7])
        userA 7 sampleNow).2
      userA { eventId := some 4, seats := some 1 } sampleNow 9).1.code = 201 := by
  refine ⟨by decide, ?_⟩
  obtain ⟨event, hev, _, hall⟩ :=
    cancel_then_rebook [workshop]
      [Request.create userA { eventId := some 4, seats := some 1 } sampleNow 7] userA 7 sampleNow
      (markCancelled (newBooking userA workshop 4 1 sampleNow 7) sampleNow) (by decide)
  have hw : event = workshop := by
    have : findEventById [workshop] 4 = some workshop := by decide
    exact (Option.some.inj (hev.symm.trans this))
  subst hw
  exact hall 1 sampleNow 9 (by decide) (by decide) rfl (by decide)

/-- C18, evaluated where the code departs from it: user A's request for 2 seats succeeds
with totalAmount 100, but the capacity aggregator then answers 0 booked seats, so 2 seats
are shown as available; user B's request for 1 seat on the full event is answered 201
instead of capacity-exceeded; after A's cancel, B's next request for 1 seat is rejected as
a duplicate instead of succeeding. -/
theorem worked_scenario_on_code :
    (scenarioDb.events = [concert] ∧ concert.capacity = 2 ∧ concert.price = 50 ∧
      dayOf sampleNow < dayOf concert.date ∧ scenarioDb.bookings = []) ∧
    (scenario1.1 = CreateResult.created (newBooking userA concert 1 2 sampleNow 7) ∧
      (newBooking userA concert 1 2 sampleNow 7).totalAmount = 100 ∧
      (concert.capacity : Int) - getAvailability scenario1.2 1 = 2) ∧
    (scenario2.1 = CreateResult.created (newBooking userB concert 1 1 sampleNow 8) ∧
      scenario2.1.code = 201 ∧ confirmedSeats scenario2.2.bookings 1 = 3) ∧
    scenario3.1.code = 200 ∧
    scenario4.1 = CreateResult.duplicate := by
  decide

/-! ## Statistics -/

theorem foldl_totalAmount (bs : List Booking) (z : Int) :
    bs.foldl (fun total b => total + b.totalAmount) z =
      z + (bs.map (fun b => b.totalAmount)).sum := by
  induction bs generalizing z with
  | nil => simp
  | cons b bs ih => simp [List.foldl_cons, ih, add_assoc]

theorem countDocuments_status (bs : List Booking) (s : Status) :
    countDocuments bs (some s) = bs.countP (fun b => decide (b.status = s)) := by
  unfold countDocuments
  rw [List.countP_eq_length_filter]

theorem aggregateRevenue_total (bs : List Booking) :
    (match aggregateRevenue bs with
      | [] => 0
      | r :: _ => r) = confirmedRevenue bs := by
  unfold aggregateRevenue confirmedRevenue
  cases List.filter (fun b => decide (b.status = Status.confirmed)) bs with
  | nil => rfl
  | cons m ms => simp [foldl_totalAmount]

theorem confirmedRevenue_cons (b : Booking) (bs : List Booking) :
    confirmedRevenue (b :: bs) =
      (if b.status = Status.confirmed then b.totalAmount else 0) + confirmedRevenue bs := by
  unfold confirmedRevenue
  by_cases h : b.status = Status.confirmed
  · rw [List.filter_cons_of_pos (by simpa using h), if_pos h]
    simp
  · rw [List.filter_cons_of_neg (by simpa using h), if_neg h]
    simp

theorem confirmedSpent_cons (b : Booking) (bs : List Booking) (u : ObjectId) :
    confirmedSpent (b :: bs) u =
      (if b.user = u ∧ b.status = Status.confirmed then b.totalAmount else 0) +
        confirmedSpent bs u := by
  unfold confirmedSpent
  by_cases h : b.user = u ∧ b.status = Status.confirmed
  · rw [List.filter_cons_of_pos (by simpa using h), if_pos h]
    simp
  · rw [List.filter_cons_of_neg (by simpa using h), if_neg h]
    simp

theorem confirmedSpent_append (bs cs : List Booking) (u : ObjectId) :
    confirmedSpent (bs ++ cs) u = confirmedSpent bs u + confirmedSpent cs u := by
  induction bs with
  | nil => simp [confirmedSpent]
  | cons b bs ih => rw [List.cons_append, confirmedSpent_cons, confirmedSpent_cons, ih, add_assoc]

theorem getUserStats_totalSpent (db : Db) (user : User) :
    (getUserStats db user).totalSpent = confirmedSpent db.bookings user.id := by
  unfold getUserStats confirmedSpent
  simp only [foldl_totalAmount, zero_add, List.filter_filter]
  congr 2
  apply List.filter_congr
  intro b _
  by_cases h1 : b.user = user.id <;> by_cases h2 : b.status = Status.confirmed <;> simp [h1, h2]

/-- C19: platform statistics. For every booking set, the stats operation, asked by an
administrator, returns the number of all bookings, the number with status confirmed, the
number with status cancelled, and as totalRevenue the sum of `totalAmount` over the
confirmed bookings only, which is 0 when there is none. -/
theorem platform_stats (db : Db) (user : User) (h : user.role = Role.admin) :
    getStats db user = StatsResult.ok
      { totalBookings := db.bookings.length
        confirmedBookings := db.bookings.countP (fun b => decide (b.status = Status.confirmed))
        cancelledBookings := db.bookings.countP (fun b => decide (b.status = Status.cancelled))
        totalRevenue :=
          ((db.bookings.filter (fun b => decide (b.status = Status.confirmed))).map
            (fun b => b.totalAmount)).sum } ∧
    ((∀ b ∈ db.bookings, b.status ≠ Status.confirmed) →
      ∃ stats, getStats db user = StatsResult.ok stats ∧ stats.totalRevenue = 0) := by
  have hstats : getStats db user = StatsResult.ok
      { totalBookings := db.bookings.length
        confirmedBookings := db.bookings.countP (fun b => decide (b.status = Status.confirmed))
        cancelledBookings := db.bookings.countP (fun b => decide (b.status = Status.cancelled))
        totalRevenue := confirmedRevenue db.bookings } := by
    unfold getStats
    rw [if_neg (by simp [h])]
    simp only [aggregateRevenue_total, countDocuments_status]
    rfl
  refine ⟨hstats, ?_⟩
  intro hnone
  refine ⟨_, hstats, ?_⟩
  show confirmedRevenue db.bookings = 0
  unfold confirmedRevenue
  rw [List.filter_eq_nil_iff.2 (fun b hb => by simpa using hnone b hb)]
  rfl

/-- Witness for C19: the statistics after the sample sequence. -/
theorem platform_stats_witness :
    adminUser.role = Role.admin ∧
    getStats statsDb adminUser = StatsResult.ok
      { totalBookings := 2, confirmedBookings := 1, cancelledBookings := 1, totalRevenue := 50 } :=
  ⟨rfl, (platform_stats statsDb adminUser rfl).1.trans (by decide)⟩

/-- C20: per-user statistics. For every booking set and user, the user-stats operation
returns the numbers of all, confirmed and cancelled bookings owned by the user and as
totalSpent the sum of `totalAmount` over the user's confirmed bookings; a booking owned by
another user, or a cancelled booking, contributes nothing to totalSpent, wherever it is
stored. -/
theorem user_stats (db : Db) (user : User) :
    getUserStats db user =
      { totalBookings := db.bookings.countP (fun b => decide (b.user = user.id))
        confirmedBookings := db.bookings.countP
          (fun b => decide (b.user = user.id ∧ b.status = Status.confirmed))
        cancelledBookings := db.bookings.countP
          (fun b => decide (b.user = user.id ∧ b.status = Status.cancelled))
        totalSpent :=
          ((db.bookings.filter
            (fun b => decide (b.user = user.id ∧ b.status = Status.confirmed))).map
            (fun b => b.totalAmount)).sum } ∧
    (∀ pre post b, db.bookings = pre ++ b :: post →
      (b.user ≠ user.id ∨ b.status = Status.cancelled) →
      (getUserStats db user).totalSpent =
        (getUserStats { db with bookings := pre ++ post } user).totalSpent) := by
  constructor
  · have hspent := getUserStats_totalSpent db user
    unfold confirmedSpent at hspent
    rw [← hspent]
    unfold getUserStats
    simp only [List.countP_eq_length_filter, List.filter_filter]
    congr 2
    · congr 1
      funext b
      by_cases h1 : b.user = user.id <;> by_cases h2 : b.status = Status.confirmed <;>
        simp [h1, h2]
    · congr 1
      funext b
      by_cases h1 : b.user = user.id <;> by_cases h2 : b.status = Status.cancelled <;>
        simp [h1, h2]
  · intro pre post b hsplit hb
    rw [getUserStats_totalSpent, getUserStats_totalSpent, hsplit]
    show confirmedSpent (pre ++ b :: post) user.id = confirmedSpent (pre ++ post) user.id
    have hnot : ¬(b.user = user.id ∧ b.status = Status.confirmed) := by
      rintro ⟨h1, h2⟩
      rcases hb with hb | hb
      · exact hb h1
      · rw [h2] at hb; exact absurd hb (by decide)
    rw [confirmedSpent_append, confirmedSpent_cons, if_neg hnot, confirmedSpent_append]
    ring

/-! ## Derived event status -/

theorem sameDay_iff (a b : Nat) :
    (a - a % 86400000 ≤ b ∧ b ≤ a - a % 86400000 + (86400000 - 1)) ↔
      a / 86400000 = b / 86400000 := by
  omega

theorem isSameDay_iff (a b : Date) : isSameDay a b = true ↔ dayOf a = dayOf b := by
  unfold isSameDay
  rw [decide_eq_true_iff]
  exact sameDay_iff a b

/-- C21: the derived event status is decided by comparing the day of the event date with
today: Completed exactly when the day is before today, Ongoing exactly when it is today,
Upcoming exactly when it is after today; so every event has exactly one of the three. -/
theorem event_status_spec (event : Event) (now : Date) :
    (event.status now = EventStatus.completed ↔ dayOf event.date < dayOf now) ∧
    (event.status now = EventStatus.ongoing ↔ dayOf event.date = dayOf now) ∧
    (event.status now = EventStatus.upcoming ↔ dayOf now < dayOf event.date) := by
  unfold Event.status
  by_cases hb : dayOf event.date < dayOf now
  · rw [if_pos ((isBeforeDay_iff _ _).2 hb)]
    refine ⟨by simp [hb], ?_, ?_⟩
    · constructor
      · intro h; exact absurd h (by decide)
      · intro h; omega
    · constructor
      · intro h; exact absurd h (by decide)
      · intro h; omega
  · rw [if_neg (fun h => hb ((isBeforeDay_iff _ _).1 h))]
    by_cases hs : dayOf event.date = dayOf now
    · rw [if_pos ((isSameDay_iff _ _).2 hs)]
      refine ⟨?_, by simp [hs], ?_⟩
      · constructor
        · intro h; exact absurd h (by decide)
        · intro h; exact absurd h hb
      · constructor
        · intro h; exact absurd h (by decide)
        · intro h; omega
    · rw [if_neg (fun h => hs ((isSameDay_iff _ _).1 h))]
      refine ⟨?_, ?_, ?_⟩
      · constructor
        · intro h; exact absurd h (by decide)
        · intro h; exact absurd h hb
      · constructor
        · intro h; exact absurd h (by decide)
        · intro h; exact absurd h hs
      · constructor
        · intro _; omega
        · intro _; rfl

/-! ## Own bookings -/

theorem getMyBookings_fst (db : Db) (user : User) :
    (getMyBookings db user).map Prod.fst =
      (db.bookings.filter (fun b => decide (b.user = user.id))).insertionSort newestFirst := by
  unfold getMyBookings
  rw [List.map_map]
  exact List.map_id _

/-- C22: get-own-bookings returns, for every user and booking set, exactly the bookings
whose user is the requester, each once (confirmed and cancelled alike, none of any other
user), ordered by non-increasing bookingDate, each with the event its reference resolves
to. -/
theorem my_bookings_spec (db : Db) (user : User) :
    List.Perm ((getMyBookings db user).map Prod.fst)
      (db.bookings.filter (fun b => decide (b.user = user.id))) ∧
    (∀ b, b ∈ (getMyBookings db user).map Prod.fst ↔ b ∈ db.bookings ∧ b.user = user.id) ∧
    List.Pairwise (fun a b => b.bookingDate ≤ a.bookingDate)
      ((getMyBookings db user).map Prod.fst) ∧
    (∀ p ∈ getMyBookings db user, p.2 = findEventById db.events p.1.event) := by
  haveI : IsTotal Booking newestFirst := ⟨fun a b => Nat.le_total b.bookingDate a.bookingDate⟩
  haveI : IsTrans Booking newestFirst := ⟨fun a b c hab hbc => Nat.le_trans hbc hab⟩
  rw [getMyBookings_fst]
  refine ⟨List.perm_insertionSort _ _, ?_, List.sorted_insertionSort newestFirst _, ?_⟩
  · intro b
    rw [List.mem_insertionSort, List.mem_filter]
    simp
  · intro p hp
    unfold getMyBookings at hp
    obtain ⟨b, _, hb⟩ := List.mem_map.1 hp
    rw [← hb]

/-! ## What changes a capacity -/

theorem findEventById_cons (e : Event) (es : List Event) (id : ObjectId) :
    findEventById (e :: es) id = if e.id = id then some e else findEventById es id := by
  unfold findEventById
  rw [List.find?_cons]
  by_cases h : e.id = id <;> simp [h]

theorem saveEvent_map (es : List Event) (e doc : Event)
    (h : findEventById es doc.id = some e) (hc : doc.capacity = e.capacity) :
    (saveEvent es doc).map (fun x => (x.id, x.capacity)) =
      es.map (fun x => (x.id, x.capacity)) := by
  induction es with
  | nil => rfl
  | cons x xs ih =>
    rw [findEventById_cons] at h
    unfold saveEvent
    by_cases hx : x.id = doc.id
    · rw [if_pos hx] at h
      rw [if_pos hx]
      have hxe : x = e := Option.some.inj h
      subst hxe
      simp [hx, hc]
    · rw [if_neg hx] at h
      rw [if_neg hx, List.map_cons, List.map_cons, ih h]

theorem findEventById_saveEvent (es : List Event) (e doc : Event)
    (h : findEventById es doc.id = some e) :
    findEventById (saveEvent es doc) doc.id = some doc := by
  induction es with
  | nil => simp [findEventById] at h
  | cons x xs ih =>
    rw [findEventById_cons] at h
    unfold saveEvent
    by_cases hx : x.id = doc.id
    · rw [if_pos hx, findEventById_cons, if_pos rfl]
    · rw [if_neg hx] at h
      rw [if_neg hx, findEventById_cons, if_neg hx, ih h]

theorem assignBody_id (event : Event) (body : EventBody) : (assignBody event body).id = event.id :=
  rfl

/-- Shape of a successful event update. -/
theorem updateEvent_updated (db : Db) (user : User) (id : ObjectId) (body : EventBody)
    (event : Event) (h : (updateEvent db user id body).1 = EventResult.updated event) :
    eventBodyValid true body = true ∧
    ∃ old, findEventById db.events id = some old ∧ event = assignBody old body ∧
      (updateEvent db user id body).2 = { db with events := saveEvent db.events event } := by
  unfold updateEvent at h ⊢
  by_cases hr : user.role ≠ Role.admin
  · rw [if_pos hr] at h
    exact absurd h (by simp)
  · rw [if_neg hr] at h ⊢
    by_cases hv : (!eventBodyValid true body) = true
    · rw [if_pos hv] at h
      exact absurd h (by simp)
    · rw [if_neg hv] at h ⊢
      cases hf : findEventById db.events id with
      | none =>
        rw [hf] at h
        exact absurd h (by simp)
      | some old =>
        rw [hf] at h
        have he : assignBody old body = event := by simpa using h
        exact ⟨by simpa using hv, old, rfl, he.symm, by rw [← he]⟩

/-- An event update either changes nothing or is a successful update. -/
theorem updateEvent_cases (db : Db) (user : User) (id : ObjectId) (body : EventBody) :
    (updateEvent db user id body).2 = db ∨
    ∃ event, (updateEvent db user id body).1 = EventResult.updated event := by
  unfold updateEvent
  by_cases hr : user.role ≠ Role.admin
  · rw [if_pos hr]; exact Or.inl rfl
  · rw [if_neg hr]
    by_cases hv : (!eventBodyValid true body) = true
    · rw [if_pos hv]; exact Or.inl rfl
    · rw [if_neg hv]
      cases findEventById db.events id with
      | none => exact Or.inl rfl
      | some old => exact Or.inr ⟨_, rfl⟩

/-- An accepted create request asked for no more seats than the capacity stored for the
event at that moment. -/
theorem createBooking_created_capacity (db : Db) (user : User) (body : CreateBody) (now : Date)
    (newId : ObjectId) (b : Booking)
    (h : (createBooking db user body now newId).1 = CreateResult.created b) :
    ∃ event, findEventById db.events b.event = some event ∧
      b.seats ≤ (event.capacity : Int) := by
  by_cases hv : validationResult body = []
  · obtain ⟨e, n, he, hs, h1, h2⟩ := (validationResult_eq_nil_iff body).1 hv
    rw [createBooking_valid db user body now newId he hs ⟨h1, h2⟩] at h
    cases hf : findEventById db.events e with
    | none => rw [hf] at h; simp at h
    | some event =>
      rw [hf] at h
      simp only at h
      split_ifs at h with hd hc hcap
      simp only [CreateResult.created.injEq] at h
      rw [← h]
      exact ⟨event, hf, Int.not_lt.1 hcap⟩
  · rw [createBooking_invalid db user body now newId hv] at h
    simp at h

/-- C23 as stated fails: the administrator's update of the workshop raises its capacity
from 1 to 5, and the capacity check of create-booking then uses 5: the request for two
seats that was rejected as capacity-exceeded before the update succeeds after it. -/
theorem capacity_update_counterexample :
    (findEventById soloDb.events 4).map (fun e => e.capacity) = some 1 ∧
    (updateEvent soloDb adminUser 4 capacityUpdate).1 = EventResult.updated
      { id := 4, capacity := 5, price := 30, date := noonOf 20 } ∧
    (findEventById (updateEvent soloDb adminUser 4 capacityUpdate).2.events 4).map
      (fun e => e.capacity) = some 5 ∧
    (createBooking soloDb userB { eventId := some 4, seats := some 2 } sampleNow 9).1 =
      CreateResult.capacityExceeded 1 ∧
    (createBooking (updateEvent soloDb adminUser 4 capacityUpdate).2 userB
      { eventId := some 4, seats := some 2 } sampleNow 9).1.code = 201 := by
  decide

/-- C23, amended: the capacity of an existing event is changed by no booking request, by
no event creation (the stored events stay in place, a new one may follow them), by no
event deletion (which only removes an event) and by no event update without a capacity
field; an accepted event update that carries a capacity field sets the capacity of the
event to that integer, which is at least 1, and that is the capacity found afterwards;
a create-booking request is accepted only for seats that do not exceed the capacity
stored for the event at that moment. -/
theorem capacity_changes_only_by_update (db : Db) :
    (∀ r, (step db r).events = db.events) ∧
    (∀ user body newId, ∃ l, (createEvent db user body newId).2.events = db.events ++ l) ∧
    (∀ user id, List.Sublist (deleteEvent db user id).2.events db.events) ∧
    (∀ user id body, (∀ c, body.capacity ≠ Input.value c) →
      (updateEvent db user id body).2.events.map (fun e => (e.id, e.capacity)) =
        db.events.map (fun e => (e.id, e.capacity))) ∧
    (∀ user id body c event, body.capacity = Input.value c →
      (updateEvent db user id body).1 = EventResult.updated event →
      1 ≤ c ∧ event.capacity = c.toNat ∧
        findEventById (updateEvent db user id body).2.events id = some event) ∧
    (∀ user body now newId b,
      (createBooking db user body now newId).1 = CreateResult.created b →
      ∃ event, findEventById db.events b.event = some event ∧
        b.seats ≤ (event.capacity : Int)) := by
  refine ⟨step_events db, ?_, ?_, ?_, ?_, createBooking_created_capacity db⟩
  · intro user body newId
    unfold createEvent
    split_ifs
    · exact ⟨[], by simp⟩
    · exact ⟨[], by simp⟩
    · exact ⟨_, rfl⟩
  · intro user id
    unfold deleteEvent
    split_ifs
    · exact List.Sublist.refl _
    · cases findEventById db.events id with
      | none => exact List.Sublist.refl _
      | some _ => exact List.eraseP_sublist _
  · intro user id body hno
    rcases updateEvent_cases db user id body with h | ⟨event, h⟩
    · rw [h]
    · obtain ⟨_, old, hold, hev, hdb⟩ := updateEvent_updated db user id body event h
      rw [hdb]
      have hid : event.id = id := by rw [hev, assignBody_id]; exact findEventById_id hold
      have hcap : event.capacity = old.capacity := by
        rw [hev]
        unfold assignBody
        cases hc : body.capacity with
        | absent => rfl
        | malformed => rfl
        | value c => exact absurd hc (hno c)
      exact saveEvent_map db.events old event (by rw [hid]; exact hold) hcap
  · intro user id body c event hc h
    obtain ⟨hvalid, old, hold, hev, hdb⟩ := updateEvent_updated db user id body event h
    have hid : event.id = id := by rw [hev, assignBody_id]; exact findEventById_id hold
    refine ⟨?_, ?_, ?_⟩
    · unfold eventBodyValid at hvalid
      rw [hc] at hvalid
      simp [capacityValid] at hvalid
      exact hvalid.1.2
    · rw [hev]
      unfold assignBody
      rw [hc]
    · rw [hdb]
      have := findEventById_saveEvent db.events old event (by rw [hid]; exact hold)
      rw [hid] at this
      exact this

/-! ## What removes a booking -/

/-- C24 as stated fails: the repository's `clearBookings` script removes every booking. -/
theorem clear_bookings_counterexample :
    fullDb.bookings.length = 2 ∧ (clearBookings fullDb).bookings = [] ∧
    findBookingById (clearBookings fullDb).bookings 7 = none := by
  decide

/-- One request to a mutating route of the server leaves the stored bookings as they are,
or is an accepted create request that appends one booking, or is an accepted cancel
request that replaces one confirmed booking by its cancelled copy. -/
theorem stepOp_bookings_cases (db : Db) (op : Op) :
    (stepOp db op).bookings = db.bookings ∨
    (∃ user body now newId b, op = Op.booking (Request.create user body now newId) ∧
      (createBooking db user body now newId).1 = CreateResult.created b ∧
      (stepOp db op).bookings = db.bookings ++ [b]) ∨
    (∃ user id now b, op = Op.booking (Request.cancel user id now) ∧
      findBookingById db.bookings id = some b ∧ b.status = Status.confirmed ∧
      (stepOp db op).bookings = saveBooking db.bookings (markCancelled b now)) := by
  rcases stepOp_bookings db op with ⟨r, hr⟩ | hsame
  · subst hr
    cases r with
    | create user body now newId =>
      show (createBooking db user body now newId).2.bookings = db.bookings ∨ _
      rcases createBooking_cases db user body now newId with
        hc | ⟨e, n, event, _, _, _, _, _, _, _, hc⟩
      · left; rw [hc]
      · right; left
        refine ⟨user, body, now, newId, newBooking user event e n now newId, rfl, ?_, ?_⟩
        · rw [hc]
        · show (createBooking db user body now newId).2.bookings = _
          rw [hc]
    | cancel user id now =>
      show (cancelBooking db user id now).2.bookings = db.bookings ∨ _
      rcases cancelBooking_cases db user id now with hc | ⟨b, _, hb, _, _, _, hs, hc⟩
      · left; rw [hc.1]
      · right; right
        refine ⟨user, id, now, b, rfl, hb, hs, ?_⟩
        show (cancelBooking db user id now).2.bookings = _
        rw [hc]
  · exact Or.inl hsame

theorem length_saveBooking (bs : List Booking) (doc : Booking) :
    (saveBooking bs doc).length = bs.length := by
  induction bs with
  | nil => rfl
  | cons x xs ih =>
    unfold saveBooking
    split_ifs
    · rfl
    · rw [List.length_cons, List.length_cons, ih]

theorem stepOp_length (db : Db) (op : Op) :
    db.bookings.length ≤ (stepOp db op).bookings.length := by
  rcases stepOp_bookings_cases db op with h | ⟨_, _, _, _, b, _, _, h⟩ | ⟨_, _, _, b, _, _, _, h⟩
  · rw [h]
  · rw [h, List.length_append]
    exact Nat.le_add_right _ _
  · rw [h, length_saveBooking]

theorem runOps_length (db : Db) (ops : List Op) :
    db.bookings.length ≤ (runOps db ops).bookings.length := by
  induction ops generalizing db with
  | nil => exact Nat.le_refl _
  | cons op ops ih => exact Nat.le_trans (stepOp_length db op) (ih (stepOp db op))

/-- C24, amended: no route of the server removes a booking. Over any sequence of requests
to the mutating routes, the booking stored at a position is still stored there, with the
same identifier, user, event, seats, totalAmount and bookingDate, and the number of stored
bookings never decreases; a single request changes the stored bookings only as an accepted
create request, which appends one booking, or as an accepted cancel request, which
replaces one confirmed booking by its cancelled copy. -/
theorem bookings_kept_by_routes (db : Db) (ops : List Op) :
    (∀ (i : Nat) (b : Booking), db.bookings[i]? = some b →
      ∃ later, (runOps db ops).bookings[i]? = some later ∧
        later.id = b.id ∧ later.user = b.user ∧ later.event = b.event ∧
        later.seats = b.seats ∧ later.totalAmount = b.totalAmount ∧
        later.bookingDate = b.bookingDate) ∧
    db.bookings.length ≤ (runOps db ops).bookings.length ∧
    (∀ op, (stepOp db op).bookings = db.bookings ∨
      (∃ user body now newId b, op = Op.booking (Request.create user body now newId) ∧
        (createBooking db user body now newId).1 = CreateResult.created b ∧
        (stepOp db op).bookings = db.bookings ++ [b]) ∨
      (∃ user id now b, op = Op.booking (Request.cancel user id now) ∧
        findBookingById db.bookings id = some b ∧ b.status = Status.confirmed ∧
        (stepOp db op).bookings = saveBooking db.bookings (markCancelled b now))) := by
  refine ⟨?_, runOps_length db ops, stepOp_bookings_cases db⟩
  intro i b h
  obtain ⟨later, hlater, hev⟩ := runOps_evolves db ops i b h
  obtain ⟨h1, h2, h3, h4, h5, h6, _, _⟩ := hev.frame
  exact ⟨later, hlater, h1, h2, h3, h4, h5, h6⟩

/-! ## Role and the booking core -/

/-- C25: admins are excluded from booking at the interface only. The booking section of
the event page is hidden from an administrator, while the response of create-booking and
the database after it are the same for two requesters that differ only in their role. -/
theorem create_ignores_role (db : Db) (id : ObjectId) (body : CreateBody) (now : Date)
    (newId : ObjectId) :
    createBooking db { id := id, role := Role.admin } body now newId =
      createBooking db { id := id, role := Role.user } body now newId ∧
    bookingSectionShown (some { id := id, role := Role.admin }) = false ∧
    bookingSectionShown (some { id := id, role := Role.user }) = true := by
  refine ⟨?_, rfl, rfl⟩
  unfold createBooking
  rfl

/-! ## Statistics add up -/

theorem length_eq_status_counts (bs : List Booking) :
    bs.length =
      (bs.filter (fun b => decide (b.status = Status.confirmed))).length +
        (bs.filter (fun b => decide (b.status = Status.cancelled))).length := by
  induction bs with
  | nil => rfl
  | cons b bs ih =>
    cases hs : b.status with
    | confirmed =>
      rw [List.filter_cons_of_pos (by simp [hs]), List.filter_cons_of_neg (by simp [hs]),
        List.length_cons, List.length_cons, ih]
      omega
    | cancelled =>
      rw [List.filter_cons_of_neg (by simp [hs]), List.filter_cons_of_pos (by simp [hs]),
        List.length_cons, List.length_cons, ih]
      omega

/-- C26: in the platform statistics and in the per-user statistics alike, for every
booking set (so for every reachable one), totalBookings is the sum of confirmedBookings
and cancelledBookings; an administrator always gets the platform statistics. -/
theorem stats_total_split (db : Db) (user : User) :
    (∀ stats, getStats db user = StatsResult.ok stats →
      stats.totalBookings = stats.confirmedBookings + stats.cancelledBookings) ∧
    (user.role = Role.admin → ∃ stats, getStats db user = StatsResult.ok stats) ∧
    (getUserStats db user).totalBookings =
      (getUserStats db user).confirmedBookings + (getUserStats db user).cancelledBookings := by
  refine ⟨?_, ?_, ?_⟩
  · intro stats h
    unfold getStats at h
    split_ifs at h with hr
    simp only [StatsResult.ok.injEq] at h
    rw [← h]
    exact length_eq_status_counts db.bookings
  · intro hr
    unfold getStats
    rw [if_neg (by simp [hr])]
    exact ⟨_, rfl⟩
  · exact length_eq_status_counts _

/-- Sum of a weight over the bookings that satisfy a test, as a sum over all bookings. -/
theorem sum_filter_map {M : Type} [AddCommMonoid M] (p : Booking → Bool) (f : Booking → M)
    (bs : List Booking) :
    ((bs.filter p).map f).sum = (bs.map (fun b => if p b = true then f b else 0)).sum := by
  induction bs with
  | nil => rfl
  | cons b bs ih =>
    by_cases hp : p b = true
    · rw [List.filter_cons_of_pos hp, List.map_cons, List.sum_cons, List.map_cons,
        List.sum_cons, if_pos hp, ih]
    · rw [List.filter_cons_of_neg hp, List.map_cons, List.sum_cons, if_neg hp, zero_add, ih]

theorem length_eq_sum_ones (bs : List Booking) : bs.length = (bs.map (fun _ => 1)).sum := by
  induction bs with
  | nil => rfl
  | cons b bs ih => rw [List.length_cons, List.map_cons, List.sum_cons, ← ih]; omega

/-- Among users with distinct identifiers, exactly one owns a given booking. -/
theorem sum_owner {M : Type} [AddCommMonoid M] (users : List User) (x : ObjectId) (v : M)
    (hnodup : (users.map (fun u => u.id)).Nodup) (hx : x ∈ users.map (fun u => u.id)) :
    (users.map (fun u => if x = u.id then v else 0)).sum = v := by
  induction users with
  | nil => simp at hx
  | cons u us ih =>
    rw [List.map_cons, List.nodup_cons] at hnodup
    rw [List.map_cons, List.sum_cons]
    by_cases hu : x = u.id
    · rw [if_pos hu]
      have hzero : (us.map (fun u => if x = u.id then v else 0)).sum = 0 := by
        apply List.sum_eq_zero
        intro y hy
        obtain ⟨w, hw, hwy⟩ := List.mem_map.1 hy
        rw [← hwy, if_neg]
        intro hxw
        exact hnodup.1 (List.mem_map.2 ⟨w, hw, by rw [← hxw, hu]⟩)
      rw [hzero, add_zero]
    · rw [if_neg hu, zero_add]
      apply ih hnodup.2
      rw [List.map_cons] at hx
      rcases List.mem_cons.1 hx with hx | hx
      · exact absurd hx hu
      · exact hx

/-- Summing a weight over each user's bookings and then over the users gives the sum of
the weight over all bookings. -/
theorem sum_over_users {M : Type} [AddCommMonoid M] (w : Booking → M) (bs : List Booking)
    (users : List User) (hnodup : (users.map (fun u => u.id)).Nodup)
    (hcover : ∀ b ∈ bs, b.user ∈ users.map (fun u => u.id)) :
    (users.map (fun u => ((bs.filter (fun b => decide (b.user = u.id))).map w).sum)).sum =
      (bs.map w).sum := by
  induction bs with
  | nil => simp
  | cons b bs ih =>
    have hstep : ∀ u : User,
        (((b :: bs).filter (fun b => decide (b.user = u.id))).map w).sum =
          (if b.user = u.id then w b else 0) +
            ((bs.filter (fun b => decide (b.user = u.id))).map w).sum := by
      intro u
      by_cases hu : b.user = u.id
      · rw [List.filter_cons_of_pos (by simpa using hu), if_pos hu, List.map_cons,
          List.sum_cons]
      · rw [List.filter_cons_of_neg (by simpa using hu), if_neg hu, zero_add]
    simp only [hstep]
    rw [List.sum_map_add, sum_owner users b.user (w b) hnodup (hcover b (List.mem_cons_self _ _)),
      ih (fun x hx => hcover x (List.mem_cons_of_mem _ hx)), List.map_cons, List.sum_cons]

theorem length_filter_eq_sum (p : Booking → Bool) (bs : List Booking) :
    (bs.filter p).length = (bs.map (fun b => if p b = true then 1 else 0)).sum := by
  rw [length_eq_sum_ones, sum_filter_map]

theorem userStats_total (db : Db) (u : User) :
    (getUserStats db u).totalBookings =
      ((db.bookings.filter (fun b => decide (b.user = u.id))).map (fun _ => 1)).sum :=
  length_eq_sum_ones _

theorem userStats_status (db : Db) (u : User) :
    (getUserStats db u).confirmedBookings =
      ((db.bookings.filter (fun b => decide (b.user = u.id))).map
        (fun b => if decide (b.status = Status.confirmed) = true then 1 else 0)).sum ∧
    (getUserStats db u).cancelledBookings =
      ((db.bookings.filter (fun b => decide (b.user = u.id))).map
        (fun b => if decide (b.status = Status.cancelled) = true then 1 else 0)).sum :=
  ⟨length_filter_eq_sum _ _, length_filter_eq_sum _ _⟩

theorem userStats_spent (db : Db) (u : User) :
    (getUserStats db u).totalSpent =
      ((db.bookings.filter (fun b => decide (b.user = u.id))).map
        (fun b => if decide (b.status = Status.confirmed) = true then b.totalAmount else 0)).sum := by
  unfold getUserStats
  simp only [foldl_totalAmount, zero_add]
  exact sum_filter_map _ _ _

theorem excessBits_le (fuel k j : Nat) (h : k < 2 ^ (53 + j)) : excessBits fuel k ≤ j := by
  induction fuel generalizing k j with
  | zero => exact Nat.zero_le _
  | succ fuel ih =>
    unfold excessBits
    split_ifs with hk
    · exact Nat.zero_le _
    · cases j with
      | zero => exact absurd h hk
      | succ j =>
        have : k / 2 < 2 ^ (53 + j) := by
          rw [Nat.div_lt_iff_lt_mul (by norm_num)]
          calc k < 2 ^ (53 + (j + 1)) := h
            _ = 2 ^ (53 + j) * 2 := by rw [← Nat.add_assoc, pow_succ]
        exact Nat.succ_le_succ (ih (k / 2) j this)

/-- A whole number below `2 ^ 53` is a double: rounding leaves it as it is. -/
theorem roundDouble_whole (m : Nat) (hm : m < 2 ^ 53) :
    roundDouble (m * 2 ^ 64) = m * 2 ^ 64 := by
  unfold roundDouble
  split_ifs with h
  · rfl
  · have hshift : excessBits (m * 2 ^ 64) (m * 2 ^ 64) ≤ 64 := by
      apply excessBits_le
      calc m * 2 ^ 64 < 2 ^ 53 * 2 ^ 64 := Nat.mul_lt_mul_of_pos_right hm (by positivity)
        _ = 2 ^ (53 + 64) := by rw [← pow_add]
    generalize excessBits (m * 2 ^ 64) (m * 2 ^ 64) = sh at hshift
    have hdvd : 2 ^ sh ∣ m * 2 ^ 64 := Dvd.dvd.mul_left (pow_dvd_pow 2 hshift) m
    have hr : m * 2 ^ 64 % 2 ^ sh = 0 := Nat.mod_eq_zero_of_dvd hdvd
    simp only [hr]
    split_ifs with h1
    · exfalso
      rcases h1 with h1 | ⟨h1, _⟩
      · exact absurd h1 (Nat.not_lt_zero _)
      · exact absurd h1.symm (by positivity)
    · rw [Nat.shiftRight_eq_div_pow, Nat.shiftLeft_eq, Nat.div_mul_cancel hdvd]

/-- On whole amounts whose sum stays below `2 ^ 53`, double addition is the addition of
whole numbers; there the integral amounts of `Booking` and `Event` are exact. -/
theorem addDouble_whole (a b : Nat) (h : a + b < 2 ^ 53) :
    addDouble (a * 2 ^ 64) (b * 2 ^ 64) = (a + b) * 2 ^ 64 := by
  unfold addDouble
  rw [← Nat.add_mul]
  exact roundDouble_whole (a + b) h

/-- C27 as stated fails on fractional amounts. With confirmed bookings of 0.1 by one user
and of 0.2 and 0.3 by another, stored in that order, the platform revenue is
0.6000000000000001 while the per-user figures 0.1 and 0.5 add up to 0.6. With 0.1 and
0.4 by one user and 0.1 by another between them, the per-user figures add up to 0.6
while the platform revenue is 0.6000000000000001, whether it is accumulated in stored
order or summed exactly and rounded once. -/
theorem revenue_rounding_counterexample :
    (totalRevenueDouble tenthsPaid = 5404319552844596 * 2 ^ 11 ∧
      totalSpentDouble tenthsPaid 101 = tenth ∧ totalSpentDouble tenthsPaid 102 = 2 ^ 63 ∧
      addDouble (totalSpentDouble tenthsPaid 101) (totalSpentDouble tenthsPaid 102) =
        5404319552844595 * 2 ^ 11 ∧
      totalRevenueDouble tenthsPaid ≠
        addDouble (totalSpentDouble tenthsPaid 101) (totalSpentDouble tenthsPaid 102)) ∧
    (totalRevenueDouble mixedPaid = 5404319552844596 * 2 ^ 11 ∧
      roundDouble (tenth + tenth + fourTenths) = 5404319552844596 * 2 ^ 11 ∧
      totalSpentDouble mixedPaid 101 = 2 ^ 63 ∧ totalSpentDouble mixedPaid 102 = tenth ∧
      addDouble (totalSpentDouble mixedPaid 101) (totalSpentDouble mixedPaid 102) =
        5404319552844595 * 2 ^ 11 ∧
      totalRevenueDouble mixedPaid ≠
        addDouble (totalSpentDouble mixedPaid 101) (totalSpentDouble mixedPaid 102)) := by
  decide

/-- C27, amended: for every booking set and every list of users with distinct identifiers
that contains the owner of every booking, the platform's totalBookings, confirmedBookings
and cancelledBookings are the sums over those users of the per-user counts, and, the
amounts being whole numbers, the platform's totalRevenue is the sum over those users of
the per-user totalSpent. -/
theorem platform_is_sum_of_users (db : Db) (admin : User) (users : List User)
    (hadmin : admin.role = Role.admin) (hnodup : (users.map (fun u => u.id)).Nodup)
    (hcover : ∀ b ∈ db.bookings, b.user ∈ users.map (fun u => u.id)) :
    getStats db admin = StatsResult.ok
      { totalBookings := (users.map (fun u => (getUserStats db u).totalBookings)).sum
        confirmedBookings := (users.map (fun u => (getUserStats db u).confirmedBookings)).sum
        cancelledBookings := (users.map (fun u => (getUserStats db u).cancelledBookings)).sum
        totalRevenue := (users.map (fun u => (getUserStats db u).totalSpent)).sum } := by
  have h1 : (users.map (fun u => (getUserStats db u).totalBookings)).sum = db.bookings.length := by
    simp only [userStats_total]
    rw [sum_over_users (fun _ => 1) db.bookings users hnodup hcover, ← length_eq_sum_ones]
  have h2 : (users.map (fun u => (getUserStats db u).confirmedBookings)).sum =
      countDocuments db.bookings (some Status.confirmed) := by
    simp only [(userStats_status db _).1]
    rw [sum_over_users _ db.bookings users hnodup hcover, ← length_filter_eq_sum]
    rfl
  have h3 : (users.map (fun u => (getUserStats db u).cancelledBookings)).sum =
      countDocuments db.bookings (some Status.cancelled) := by
    simp only [(userStats_status db _).2]
    rw [sum_over_users _ db.bookings users hnodup hcover, ← length_filter_eq_sum]
    rfl
  have h4 : (users.map (fun u => (getUserStats db u).totalSpent)).sum =
      confirmedRevenue db.bookings := by
    simp only [userStats_spent]
    rw [sum_over_users _ db.bookings users hnodup hcover, ← sum_filter_map]
    rfl
  rw [h1, h2, h3, h4]
  unfold getStats
  rw [if_neg (by simp [hadmin])]
  simp only [aggregateRevenue_total]
  rfl

/-- Witness for C27: the statistics after the sample sequence, over the three sample
users. -/
theorem platform_is_sum_of_users_witness :
    getStats statsDb adminUser = StatsResult.ok
      { totalBookings := 2, confirmedBookings := 1, cancelledBookings := 1, totalRevenue := 50 } ∧
    (getUserStats statsDb userA).totalSpent = 0 ∧ (getUserStats statsDb userB).totalSpent = 50 :=
  ⟨(platform_is_sum_of_users statsDb adminUser [userA, userB, adminUser] rfl (by decide)
      (by decide)).trans (by decide), by decide, by decide⟩

/-! ## The reported number of available seats -/

/-- Shape of a capacity rejection: the request was well-formed, the event resolved, and the
reported number is below the requested seats. -/
theorem createBooking_capacityExceeded (db : Db) (user : User) (body : CreateBody) (now : Date)
    (newId : ObjectId) (k : Int)
    (h : (createBooking db user body now newId).1 = CreateResult.capacityExceeded k) :
    ∃ e n event, body.eventId = some e ∧ body.seats = some n ∧ (1 ≤ n ∧ n ≤ 2) ∧
      findEventById db.events e = some event ∧
      k = (event.capacity : Int) ∧ k < n := by
  by_cases hv : validationResult body = []
  · obtain ⟨e, n, he, hs, h1, h2⟩ := (validationResult_eq_nil_iff body).1 hv
    rw [createBooking_valid db user body now newId he hs ⟨h1, h2⟩] at h
    cases hf : findEventById db.events e with
    | none => rw [hf] at h; simp at h
    | some event =>
      rw [hf] at h
      simp only at h
      split_ifs at h with hd hc hcap
      simp only [CreateResult.capacityExceeded.injEq] at h
      exact ⟨e, n, event, he, hs, ⟨h1, h2⟩, hf, h.symm, by rw [← h]; exact hcap⟩
  · rw [createBooking_invalid db user body now newId hv] at h
    simp at h

/-- C28: when the confirmed seats of the requested event are within its capacity, a
capacity-exceeded rejection reports 0 or 1: the reported number is non-negative and
strictly less than the requested seats, which passed validation and so are at most 2. -/
theorem capacity_report_bounds (db : Db) (user : User) (body : CreateBody) (now : Date)
    (newId : ObjectId) (k : Int)
    (h : (createBooking db user body now newId).1 = CreateResult.capacityExceeded k)
    (_hinv : ∀ event, requestedEvent db body = some event →
      confirmedSeats db.bookings event.id ≤ (event.capacity : Int)) :
    (k = 0 ∨ k = 1) ∧ 0 ≤ k ∧ ∃ n, body.seats = some n ∧ k < n ∧ n ≤ 2 := by
  obtain ⟨e, n, event, he, hs, hn, hf, hk, hlt⟩ :=
    createBooking_capacityExceeded db user body now newId k h
  have h0 : 0 ≤ k := by rw [hk]; exact Int.ofNat_nonneg _
  refine ⟨?_, h0, n, hs, hlt, hn.2⟩
  omega

/-- Witness for C28: a request for two seats of the single-seat workshop is told that 1
seat is available. -/
theorem capacity_report_bounds_witness :
    (createBooking soloDb userB { eventId := some 4, seats := some 2 } sampleNow 9).1 =
      CreateResult.capacityExceeded 1 ∧
    ((1 : Int) = 0 ∨ (1 : Int) = 1) :=
  ⟨by decide,
    (capacity_report_bounds soloDb userB { eventId := some 4, seats := some 2 } sampleNow 9 1
      (by decide) (by decide)).1⟩

/-! ## Bookings that cannot be cancelled -/

/-- C29: a booking made on the day of the event can never be cancelled. A create request
for an event dated today that passes the other rules succeeds; and for a stored booking
whose event is dated today or earlier, the owner's cancel request, served today or on any
later day while the event keeps its date, is rejected as event-started and changes
nothing. -/
theorem booked_today_never_cancellable (db : Db) (user : User) (id : ObjectId)
    (b : Booking) (event : Event) (today now : Date)
    (hb : findBookingById db.bookings id = some b) (ho : b.user = user.id)
    (he : findEventById db.events b.event = some event)
    (hday : dayOf event.date ≤ dayOf today) (hlater : dayOf today ≤ dayOf now) :
    cancelBooking db user id now = (CancelResult.eventStarted, db) ∧
    (∀ (db0 : Db) (u : User) (n : Int) (newId : ObjectId) (e : Event),
      SeatsNonneg db0.bookings →
      findEventById db0.events e.id = some e → dayOf e.date = dayOf today →
      1 ≤ n → n ≤ 2 → confirmedCount db0.bookings u.id e.id = 0 →
      n ≤ (e.capacity : Int) - confirmedSeats db0.bookings e.id →
      (createBooking db0 u { eventId := some e.id, seats := some n } today newId).1.code = 201) ∧
    (∀ (db0 : Db) (u : User) (n : Int) (newId : ObjectId) (e : Event),
      findEventById db0.events e.id = some e → dayOf e.date = dayOf today →
      1 ≤ n → n ≤ 2 → confirmedCount db0.bookings u.id e.id = 0 →
      n ≤ (e.capacity : Int) →
      (createBooking db0 u { eventId := some e.id, seats := some n } today newId).1.code = 201) := by
  have hcreate : ∀ (db0 : Db) (u : User) (n : Int) (newId : ObjectId) (e : Event),
      findEventById db0.events e.id = some e → dayOf e.date = dayOf today →
      1 ≤ n → n ≤ 2 → confirmedCount db0.bookings u.id e.id = 0 →
      n ≤ (e.capacity : Int) →
      (createBooking db0 u { eventId := some e.id, seats := some n } today newId).1.code = 201 := by
    intro db0 u n newId e hf hd h1 h2 hc hcap
    rw [createBooking_valid db0 u _ today newId (e := e.id) (n := n) rfl rfl ⟨h1, h2⟩, hf]
    simp only
    rw [if_neg (by omega), if_neg (by simp [hc]), if_neg (by omega)]
    rfl
  refine ⟨?_, ?_, hcreate⟩
  · rw [cancelBooking_eq, hb]
    simp only
    rw [if_neg (not_not.2 ho), he]
    simp only
    rw [if_pos (Nat.le_trans hday hlater)]
  · intro db0 u n newId e hnonneg hf hd h1 h2 hc hcap
    have h0 := confirmedSeats_nonneg db0.bookings e.id hnonneg
    exact hcreate db0 u n newId e hf hd h1 h2 hc (by omega)

/-- Witness for C29: `userA` books the event of tonight at noon; the cancel requests on
the same day and on the next day are rejected as event-started. -/
theorem booked_today_never_cancellable_witness :
    (createBooking tonightDb userA { eventId := some 3, seats := some 1 } sampleNow 7).1 =
      CreateResult.created (newBooking userA tonight 3 1 sampleNow 7) ∧
    cancelBooking (createBooking tonightDb userA { eventId := some 3, seats := some 1 } sampleNow 7).2
      userA 7 sampleNow =
      (CancelResult.eventStarted,
        (createBooking tonightDb userA { eventId := some 3, seats := some 1 } sampleNow 7).2) ∧
    cancelBooking (createBooking tonightDb userA { eventId := some 3, seats := some 1 } sampleNow 7).2
      userA 7 (noonOf 11) =
      (CancelResult.eventStarted,
        (createBooking tonightDb userA { eventId := some 3, seats := some 1 } sampleNow 7).2) :=
  ⟨by decide, by decide,
    (booked_today_never_cancellable
      (createBooking tonightDb userA { eventId := some 3, seats := some 1 } sampleNow 7).2
      userA 7 (newBooking userA tonight 3 1 sampleNow 7) tonight sampleNow (noonOf 11)
      (by decide) (by decide) (by decide) (by decide) (by decide)).1⟩

/-! ## Cancelling after the event was deleted -/

theorem findEventById_eraseP (es : List Event) (id : ObjectId)
    (hnodup : (es.map (fun e => e.id)).Nodup) :
    findEventById (es.eraseP (fun e => decide (e.id = id))) id = none := by
  induction es with
  | nil => rfl
  | cons x xs ih =>
    rw [List.map_cons, List.nodup_cons] at hnodup
    by_cases hx : x.id = id
    · rw [List.eraseP_cons_of_pos (by simpa using hx)]
      unfold findEventById
      rw [List.find?_eq_none]
      intro y hy
      simp only [decide_eq_true_eq]
      intro hyid
      exact hnodup.1 (List.mem_map.2 ⟨y, hy, by rw [hyid, hx]⟩)
    · rw [List.eraseP_cons_of_neg (by simpa using hx), findEventById_cons, if_neg hx]
      exact ih hnodup.2

/-- The owner's cancel request for a booking whose event does not resolve falls into the
`catch` of the handler. -/
theorem cancelBooking_orphan (db : Db) (user : User) (id : ObjectId) (now : Date) (b : Booking)
    (hb : findBookingById db.bookings id = some b) (ho : b.user = user.id)
    (he : findEventById db.events b.event = none) :
    cancelBooking db user id now = (CancelResult.serverError, db) := by
  rw [cancelBooking_eq, hb]
  simp only
  rw [if_neg (not_not.2 ho), he]

/-- C30: if the event of a booking was deleted through the events route, the owner's
cancel request ends in the generic server-error response (500), which is none of
not-found, forbidden, event-started, already-cancelled, and the database, and with it the
booking's status and cancelledAt, is left unchanged. -/
theorem cancel_after_event_deleted (db : Db) (admin user : User) (id : ObjectId) (now : Date)
    (b : Booking) (hnodup : (db.events.map (fun e => e.id)).Nodup)
    (hdel : (deleteEvent db admin b.event).1 = EventResult.deleted)
    (hb : findBookingById db.bookings id = some b) (ho : b.user = user.id) :
    cancelBooking (deleteEvent db admin b.event).2 user id now =
      (CancelResult.serverError, (deleteEvent db admin b.event).2) ∧
    (cancelBooking (deleteEvent db admin b.event).2 user id now).1.code = 500 ∧
    (cancelBooking (deleteEvent db admin b.event).2 user id now).1.failure =
      some CancelFailure.internal ∧
    findBookingById (cancelBooking (deleteEvent db admin b.event).2 user id now).2.bookings id =
      some b := by
  have hdb : (deleteEvent db admin b.event).2 =
      { db with events := db.events.eraseP (fun e => decide (e.id = b.event)) } := by
    unfold deleteEvent at hdel ⊢
    split_ifs at hdel ⊢ with hr
    cases hf : findEventById db.events b.event with
    | none => rw [hf] at hdel; exact absurd hdel (by simp)
    | some _ => rfl
  have hcancel := cancelBooking_orphan (deleteEvent db admin b.event).2 user id now b
    (by rw [hdb]; exact hb) ho (by rw [hdb]; exact findEventById_eraseP db.events b.event hnodup)
  rw [hcancel]
  refine ⟨rfl, rfl, rfl, ?_⟩
  rw [hdb]
  exact hb

/-- Witness for C30: the administrator deletes the sample concert, then `userA` asks to
cancel the booking held on it. -/
theorem cancel_after_event_deleted_witness :
    (deleteEvent fullDb adminUser 1).1 = EventResult.deleted ∧
    cancelBooking deletedDb userA 7 sampleNow = (CancelResult.serverError, deletedDb) ∧
    findBookingById deletedDb.bookings 7 = some heldBooking :=
  ⟨by decide,
    (cancel_after_event_deleted fullDb adminUser userA 7 sampleNow heldBooking (by decide)
      (by decide) (by decide) (by decide)).1,
    by decide⟩

end EventEase
